import Mathlib

/-!
Verification of the Sudontku repository's grid engine.

The repository holds three near-duplicate copies of the same Sudoku program
(`Sudoku.py`, `Sudoku2.py`, `SudokuCLI.py`).  The engine state (a `Grid`
object) and its operations are embedded below as pure Lean functions acting
on explicit state values; Python 2-D lists become `List (List _)` values
indexed `[y][x]`, in-place mutation becomes state passing, and the two
sources of randomness (`shuffle` inside `fill_block`, `randint` inside
`remove_K_digits`) become explicit parameters (a permutation list, a stream
of drawn coordinates).  The recursive backtracking fill is embedded with an
explicit fuel argument counting call frames, so that termination and the
recursion-depth bound become theorems about the fuel.
-/

namespace Sudontku

set_option maxRecDepth 200000

/-- Read entry `(y, x)` of a 2-D list (row-major, index `[y][x]` as in the
Python sources), with default `d` out of range. -/
def gget {α : Type} (g : List (List α)) (y x : Nat) (d : α) : α :=
  (g.getD y []).getD x d

/-- Write value `v` at entry `(y, x)` of a 2-D list; no-op out of range,
matching the bounds-respecting fragment of the Python code (all source
call sites stay in range). -/
def sset {α : Type} (g : List (List α)) (y x : Nat) (v : α) : List (List α) :=
  g.set y ((g.getD y []).set x v)

/-- Numeric cell read, default 0 (Python cells hold ints, 0 = empty). -/
def get2 (g : List (List Nat)) (y x : Nat) : Nat := gget g y x 0

/-- Python `used_in_row(row, num)` (identical in all three copies):
`self.solution[row].count(num) != 0`. -/
def used_in_row (sol : List (List Nat)) (row num : Nat) : Bool :=
  (sol.getD row []).count num != 0

/-- Python `used_in_column(column, num)` (identical in all three copies):
`[row[column] for row in self.solution].count(num) != 0`. -/
def used_in_column (sol : List (List Nat)) (column num : Nat) : Bool :=
  (sol.map (fun r => r.getD column 0)).count num != 0

/-- Python `used_in_block(x, y, num)` as in `Sudoku.py` / `Sudoku2.py`: scans the
full `√N × √N` block whose top-left corner is
`(x - x % sqrt_N, y - y % sqrt_N)` (outer loop over columns, inner over
rows, early return on a hit = `List.any`). -/
def used_in_block (sqrtN : Nat) (sol : List (List Nat)) (x y num : Nat) : Bool :=
  let left := x - x % sqrtN
  let top := y - y % sqrtN
  (List.range sqrtN).any (fun dx =>
    (List.range sqrtN).any (fun dy => get2 sol (top + dy) (left + dx) == num))

/-- Python `used_in_block(x, y, num)` as in `SudokuCLI.py`: the ranges there are
`range(left, left + self.sqrt_N - 1)` and `range(top, top + self.sqrt_N - 1)`,
so only a `(√N−1) × (√N−1)` corner of the block is scanned. -/
def used_in_block_cli (sqrtN : Nat) (sol : List (List Nat)) (x y num : Nat) : Bool :=
  let left := x - x % sqrtN
  let top := y - y % sqrtN
  (List.range (sqrtN - 1)).any (fun dx =>
    (List.range (sqrtN - 1)).any (fun dy => get2 sol (top + dy) (left + dx) == num))

/-- Python `check_position(x, y, num)` of `Sudoku.py` / `Sudoku2.py`. -/
def check_position (sqrtN : Nat) (sol : List (List Nat)) (x y num : Nat) : Bool :=
  !used_in_row sol y num && !used_in_column sol x num
    && !used_in_block sqrtN sol x y num

/-- Python `check_position(x, y, num)` of `SudokuCLI.py` (same text, but it calls
that file's truncated `used_in_block`). -/
def check_position_cli (sqrtN : Nat) (sol : List (List Nat)) (x y num : Nat) : Bool :=
  !used_in_row sol y num && !used_in_column sol x num
    && !used_in_block_cli sqrtN sol x y num

/-- The `for num in range(1, N+1)` loop body of `fill_remaining`:
try the candidates in order; on a `check_position` success write the
candidate and run the recursive call `recur` (= `fill_remaining(x+1, y)`);
propagate success, otherwise reset the cell to 0 and continue; if the
candidates run out, return `False` with the current solution state.
`none` signals fuel exhaustion of the recursive call. -/
def try_nums (chk : List (List Nat) → Nat → Nat → Nat → Bool)
    (recur : List (List Nat) → Option (List (List Nat) × Bool))
    (x y : Nat) :
    List (List Nat) → List Nat → Option (List (List Nat) × Bool)
  | sol, [] => some (sol, false)
  | sol, n :: ns =>
    if chk sol x y n then
      match recur (sset sol y x n) with
      | none => none
      | some (sol2, true) => some (sol2, true)
      | some (sol2, false) => try_nums chk recur x y (sset sol2 y x 0) ns
    else try_nums chk recur x y sol ns

/-- Python `fill_remaining(x, y)` (textually identical in all three copies; the
copies differ only through `chk`, the `check_position` they call).  The
`fuel` argument counts call frames: every recursive source call costs one
unit, so `some` with fuel `f` means the call tree never nests more than
`f` frames deep.  Returns the final solution state and the boolean result. -/
def fill_remaining (N : Nat) (chk : List (List Nat) → Nat → Nat → Nat → Bool) :
    Nat → Nat → Nat → List (List Nat) → Option (List (List Nat) × Bool)
  | 0, _, _, _ => none
  | fuel + 1, x0, y0, sol =>
    if y0 == N - 1 && x0 == N then some (sol, true)
    else
      let x := if x0 == N then 0 else x0
      let y := if x0 == N then y0 + 1 else y0
      if get2 sol y x != 0 then
        fill_remaining N chk fuel (x + 1) y sol
      else
        try_nums chk (fill_remaining N chk fuel (x + 1) y) x y sol
          (List.range' 1 N)

/-- Python `fill_block(row, column)`: writes a (shuffled) list `nums` of the values
`1..N` row-major into the `√N × √N` block with top-left `(row, column)`;
the running index `i` equals `sqrt_N * y + x`. -/
def fill_block (sqrtN : Nat) (sol : List (List Nat)) (row column : Nat)
    (nums : List Nat) : List (List Nat) :=
  (List.range sqrtN).foldl
    (fun s y =>
      (List.range sqrtN).foldl
        (fun s2 x => sset s2 (row + y) (column + x) (nums.getD (sqrtN * y + x) 0))
        s)
    sol

/-- Python `fill_diagonal()` for the standard `N = 9` grid: fill the three diagonal
blocks with the (shuffled) permutations `b0`, `b1`, `b2`. -/
def fill_diagonal (sol : List (List Nat)) (b0 b1 b2 : List Nat) : List (List Nat) :=
  fill_block 3 (fill_block 3 (fill_block 3 sol 0 0 b0) 3 3 b1) 6 6 b2

/-- The all-zero `N × N` solution array built by `Grid.__init__`. -/
def zeros (N : Nat) : List (List Nat) := List.replicate N (List.replicate N 0)

/-- The engine state of a `Grid` object (fields as in `Grid.__init__` of
every copy; the UI-only `selected` / `focused` coordinates are omitted).
Python's mask holds `0`/`True`, read through `bool(...)`, embedded as
`Bool`; notes hold ints `0`/`1`. -/
structure Grid where
  N : Nat
  K : Nat
  sqrt_N : Nat
  solution : List (List Nat)
  grid : List (List Nat)
  mask : List (List Bool)
  notes : List (List (List Nat))
deriving Repr

/-- Python `Grid.__init__(N, K)`. -/
def Grid.init (N K : Nat) : Grid :=
  ⟨N, K, Nat.sqrt N,
    zeros N, zeros N,
    List.replicate N (List.replicate N false),
    List.replicate N (List.replicate N (List.replicate N 0))⟩

/-- Python `check_if_given(x, y)`: `bool(self.mask[y][x])`. -/
def check_if_given (G : Grid) (x y : Nat) : Bool :=
  gget G.mask y x false

/-- Python `is_solved()`: `self.grid == self.solution`. -/
def is_solved (G : Grid) : Bool :=
  G.grid == G.solution

/-- Python `num_empty_spaces()`: `N ** 2 - sum([sum(row) for row in filled])` with
`filled = [[1 if space else 0 for space in row] for row in self.grid]`. -/
def num_empty_spaces (G : Grid) : Nat :=
  G.N ^ 2 -
    ((G.grid.map (fun row => (row.map (fun space => if space != 0 then 1 else 0)).sum)).sum)

/-- Python `write_num(num, x, y)` (named `add_num(x, y, num)` in `SudokuCLI.py`,
same body): `self.grid[y][x] = num`, unconditionally. -/
def write_num (G : Grid) (num x y : Nat) : Grid :=
  ⟨G.N, G.K, G.sqrt_N, G.solution, sset G.grid y x num, G.mask, G.notes⟩

/-- Python `remove_num(x, y)`: `self.grid[y][x] = 0`. -/
def remove_num (G : Grid) (x y : Nat) : Grid :=
  ⟨G.N, G.K, G.sqrt_N, G.solution, sset G.grid y x 0, G.mask, G.notes⟩

/-- Python `clear_nums()`: `for i in range(N): for j in range(N): if not
check_if_given(i, j): grid[j][i] = 0`.  The mask is never written inside the
loop, so reading `check_if_given` from the entry state is exact. -/
def clear_nums (G : Grid) : Grid :=
  ⟨G.N, G.K, G.sqrt_N, G.solution,
    (List.range G.N).foldl
      (fun g i =>
        (List.range G.N).foldl
          (fun g2 j => if check_if_given G i j then g2 else sset g2 j i 0)
          g)
      G.grid,
    G.mask, G.notes⟩

/-- One step of the `remove_K_digits` sampling loop, driven by `stream`, the
list of coordinate pairs produced by the two `randint(0, N-1)` calls.
Returns the final state together with the final counter `i` (so "the loop
collected all `K` cells" is the statement that the returned counter is `K`).
-/
def remove_go : Grid → Nat → List (Nat × Nat) → List (Nat × Nat) → Grid × Nat
  | G, i, _, [] => (G, i)
  | G, i, used, p :: rest =>
    if i < G.K then
      if p ∈ used then remove_go G i used rest
      else
        remove_go
          ⟨G.N, G.K, G.sqrt_N, G.solution,
            sset G.grid p.2 p.1 (get2 G.solution p.2 p.1),
            sset G.mask p.2 p.1 true, G.notes⟩
          (i + 1) (p :: used) rest
    else (G, i)

/-- Python `remove_K_digits()` with the random draws made explicit. -/
def remove_K_digits (G : Grid) (stream : List (Nat × Nat)) : Grid :=
  (remove_go G 0 [] stream).1

/-- The digit-range test of the console shell's `play` loop
(`SudokuCLI.py`): the entered number is accepted iff `0 < num < 9`.
The parsed value is an arbitrary Python int, hence `Int` here. -/
def digit_ok (num : Int) : Bool :=
  0 < num && num < 9

/-- One playing-grid-relevant iteration of the console `play` loop, after a
position `(x, y)` and a number `num` have been parsed: if the cell is given,
print and re-prompt (no mutation); else if the digit fails `0 < num < 9`,
print and re-prompt (no mutation); else call `add_num`. -/
def cli_step (G : Grid) (x y : Nat) (num : Int) : Grid :=
  if check_if_given G x y then G
  else if digit_ok num then write_num G num.toNat x y
  else G

/-! Specification-side definitions: grid well-formedness, cell units
(rows, columns, blocks) as coordinate lists, validity of a finished
solution, and counting helpers.  These are the vocabulary in which the
claims are stated; they are not translations of Python code. -/

/-- A 2-D list is an `N × N` array. -/
def Dims {α : Type} (N : Nat) (g : List (List α)) : Prop :=
  g.length = N ∧ ∀ r ∈ g, r.length = N

/-- Number of non-zero cells of a playing grid (specification-side count
used by claim C7). -/
def count_nonzero (g : List (List Nat)) : Nat :=
  (g.map (fun r => r.countP (fun v => v != 0))).sum

/-- Values of a grid along a list of `(y, x)` coordinates. -/
def unitVals (g : List (List Nat)) (coords : List (Nat × Nat)) : List Nat :=
  coords.map (fun p => get2 g p.1 p.2)

/-- Coordinates of row `y` of a 9×9 grid. -/
def rowCoords (y : Nat) : List (Nat × Nat) :=
  (List.range 9).map (fun x => (y, x))

/-- Coordinates of column `x` of a 9×9 grid. -/
def colCoords (x : Nat) : List (Nat × Nat) :=
  (List.range 9).map (fun y => (y, x))

/-- Coordinates of the 3×3 block at block-row `bi`, block-column `bj`. -/
def blockCoords (bi bj : Nat) : List (Nat × Nat) :=
  (List.range 3).flatMap (fun dy =>
    (List.range 3).map (fun dx => (3 * bi + dy, 3 * bj + dx)))

/-- Every value `1..9` appears at most once in every row, column and block
(the loop invariant of the backtracking fill). -/
def AtMost (g : List (List Nat)) : Prop :=
  ∀ v < 10, 1 ≤ v →
    (∀ y < 9, (unitVals g (rowCoords y)).count v ≤ 1) ∧
    (∀ x < 9, (unitVals g (colCoords x)).count v ≤ 1) ∧
    (∀ bi < 3, ∀ bj < 3, (unitVals g (blockCoords bi bj)).count v ≤ 1)

/-- Every cell holds a value `≤ 9` (0 = still empty). -/
def InRange9 (g : List (List Nat)) : Prop :=
  ∀ y < 9, ∀ x < 9, get2 g y x ≤ 9

/-- A valid 9×9 Sudoku solution: a 9×9 array in which every row, every
column and every 3×3 block contains each value of `1..9` exactly once and
no cell is zero. -/
def Valid (g : List (List Nat)) : Prop :=
  Dims 9 g ∧
  (∀ v < 10, 1 ≤ v →
    (∀ y < 9, (unitVals g (rowCoords y)).count v = 1) ∧
    (∀ x < 9, (unitVals g (colCoords x)).count v = 1) ∧
    (∀ bi < 3, ∀ bj < 3, (unitVals g (blockCoords bi bj)).count v = 1)) ∧
  (∀ y < 9, ∀ x < 9, get2 g y x ≠ 0)

/-- Number of mask-true (given) cells of a grid state. -/
def mask_count (G : Grid) : Nat :=
  ((Finset.range G.N ×ˢ Finset.range G.N).filter
    (fun p => gget G.mask p.2 p.1 false = true)).card

/-! Concrete data for the counterexample run and the witnesses. -/

/-- A solution array that is zero except for a 5 at `(x, y) = (2, 2)` —
the bottom-right cell of the top-left 3×3 block, outside the 2×2 corner
that `SudokuCLI.py` scans. -/
def c1_sol : List (List Nat) := sset (zeros 9) 2 2 5

/-- Shuffle outcome (a permutation of `1..9`) for the top-left diagonal
block of the counterexample run. -/
def cex_b0 : List Nat := [5, 9, 1, 3, 7, 2, 8, 4, 6]

/-- Shuffle outcome for the centre diagonal block of the counterexample
run. -/
def cex_b1 : List Nat := [4, 7, 1, 8, 2, 5, 9, 3, 6]

/-- Shuffle outcome for the bottom-right diagonal block of the
counterexample run. -/
def cex_b2 : List Nat := [6, 3, 8, 1, 9, 4, 7, 2, 5]

/-- The solution array `SudokuCLI.py`'s fill produces from the diagonal
seeding `cex_b0 / cex_b1 / cex_b2`: the value 3 appears twice in the
top-centre block (at `(x, y) = (5, 0)` and `(3, 2)`). -/
def cex_sol : List (List Nat) :=
  [[5, 9, 1, 2, 4, 3, 8, 6, 7],
   [3, 7, 2, 1, 6, 8, 4, 5, 9],
   [8, 4, 6, 3, 5, 7, 9, 1, 2],
   [2, 6, 9, 4, 7, 1, 5, 8, 3],
   [9, 1, 4, 8, 2, 5, 3, 7, 6],
   [7, 8, 5, 9, 3, 6, 2, 4, 1],
   [4, 2, 7, 5, 1, 9, 6, 3, 8],
   [6, 5, 3, 7, 8, 2, 1, 9, 4],
   [1, 3, 8, 6, 9, 4, 7, 2, 5]]

/-- The identity permutation of `1..9`, used as the shuffle outcome of all
three diagonal blocks in the witness run of the correct engine. -/
def wit_b : List Nat := [1, 2, 3, 4, 5, 6, 7, 8, 9]

/-- The solution array the `Sudoku.py` engine produces from the
identity-permutation diagonal seeding. -/
def wit_sol : List (List Nat) :=
  [[1, 2, 3, 5, 4, 7, 6, 9, 8],
   [4, 5, 6, 2, 9, 8, 3, 1, 7],
   [7, 8, 9, 3, 6, 1, 2, 4, 5],
   [5, 6, 8, 1, 2, 3, 9, 7, 4],
   [9, 1, 7, 4, 5, 6, 8, 3, 2],
   [2, 3, 4, 7, 8, 9, 5, 6, 1],
   [6, 9, 5, 8, 7, 4, 1, 2, 3],
   [8, 7, 1, 9, 3, 2, 4, 5, 6],
   [3, 4, 2, 6, 1, 5, 7, 8, 9]]

/-- An all-false 9×9 mask. -/
def falseMask : List (List Bool) := List.replicate 9 (List.replicate 9 false)

/-- Empty notes for a 9×9 grid. -/
def noNotes : List (List (List Nat)) :=
  List.replicate 9 (List.replicate 9 (List.replicate 9 0))

/-- A mid-game state used by the witnesses: the playing grid already equals
the solution, and exactly the cell `(0, 0)` is given. -/
def Gw : Grid :=
  ⟨9, 1, 3, wit_sol, wit_sol, sset falseMask 0 0 true, noNotes⟩

/-- A freshly generated state used by the witnesses for claims about
`remove_K_digits`: solution filled, playing grid and mask untouched. -/
def Gz : Grid :=
  ⟨9, 2, 3, wit_sol, zeros 9, falseMask, noNotes⟩

/-- Decidability of `Dims`, so witnesses can check it on concrete grids. -/
instance decDims {α : Type} [DecidableEq α] (N : Nat) (g : List (List α)) :
    Decidable (Dims N g) := by
  unfold Dims
  infer_instance

/-- Decidability of `Valid`, so concrete runs can be checked. -/
instance decValid (g : List (List Nat)) : Decidable (Valid g) := by
  unfold Valid Dims
  infer_instance

/-! Basic lemmas about the 2-D list accessors. -/

theorem getD_set {α : Type} (l : List α) (i j : Nat) (a d : α) :
    (l.set i a).getD j d = if i = j ∧ j < l.length then a else l.getD j d := by
  induction l generalizing i j with
  | nil => simp
  | cons b t ih =>
    cases i with
    | zero =>
      cases j with
      | zero => simp
      | succ j => simp
    | succ i =>
      cases j with
      | zero => simp
      | succ j =>
        simp only [List.set, List.getD_cons_succ, List.length_cons]
        rw [ih i j]
        simp [Nat.succ_lt_succ_iff]

theorem set_oob {α : Type} (l : List α) (i : Nat) (a : α) (h : l.length ≤ i) :
    l.set i a = l := by
  induction l generalizing i with
  | nil => simp
  | cons b t ih =>
    cases i with
    | zero => simp at h
    | succ i =>
      simp only [List.length_cons] at h
      simp [List.set, ih i (by omega)]

theorem set_getD_self {α : Type} (l : List α) (i : Nat) (d : α)
    (h : i < l.length) : l.set i (l.getD i d) = l := by
  induction l generalizing i with
  | nil => simp at h
  | cons b t ih =>
    cases i with
    | zero => simp
    | succ i =>
      rw [List.getD_cons_succ]
      show b :: t.set i (t.getD i d) = b :: t
      rw [ih i (by simpa using h)]

theorem length_sset {α : Type} (g : List (List α)) (y x : Nat) (v : α) :
    (sset g y x v).length = g.length := by
  simp [sset]

theorem gget_sset_self {α : Type} (g : List (List α)) (y x : Nat) (v d : α)
    (hy : y < g.length) (hx : x < (g.getD y []).length) :
    gget (sset g y x v) y x d = v := by
  unfold gget sset
  rw [getD_set, if_pos ⟨rfl, hy⟩, getD_set, if_pos ⟨rfl, hx⟩]

theorem gget_sset_ne {α : Type} (g : List (List α)) (y x y2 x2 : Nat) (v d : α)
    (h : y ≠ y2 ∨ x ≠ x2) :
    gget (sset g y x v) y2 x2 d = gget g y2 x2 d := by
  unfold gget sset
  rw [getD_set]
  rcases h with h | h
  · rw [if_neg (by intro hc; exact h hc.1)]
  · by_cases hy : y = y2 ∧ y2 < g.length
    · rcases hy with ⟨rfl, hlt⟩
      rw [if_pos ⟨rfl, hlt⟩, getD_set, if_neg (by intro hc; exact h hc.1)]
    · rw [if_neg hy]

theorem sset_sset {α : Type} (g : List (List α)) (y x : Nat) (v w : α) :
    sset (sset g y x v) y x w = sset g y x w := by
  by_cases hy : y < g.length
  · unfold sset
    rw [getD_set, if_pos ⟨rfl, hy⟩, List.set_set, List.set_set]
  · have h1 : ∀ r : List α, g.set y r = g :=
      fun r => set_oob _ _ _ (Nat.le_of_not_lt hy)
    unfold sset
    simp only [h1]

theorem sset_restore {α : Type} (g : List (List α)) (y x : Nat) (d : α)
    (hy : y < g.length) (hx : x < (g.getD y []).length) :
    sset g y x ((g.getD y []).getD x d) = g := by
  simp only [sset]
  rw [set_getD_self _ _ _ hx, set_getD_self _ _ _ hy]

theorem Dims.row_len {α : Type} {N : Nat} {g : List (List α)}
    (h : Dims N g) {y : Nat} (hy : y < N) : (g.getD y []).length = N := by
  rcases h with ⟨hl, hr⟩
  have hy2 : y < g.length := by omega
  rw [List.getD_eq_getElem _ _ hy2]
  exact hr _ (List.getElem_mem hy2)

theorem dims_sset {α : Type} {N : Nat} {g : List (List α)} (h : Dims N g)
    (y x : Nat) (v : α) : Dims N (sset g y x v) := by
  by_cases hy : y < g.length
  · rcases h with ⟨hl, hr⟩
    constructor
    · simp [sset, hl]
    · intro r hmem
      rcases List.mem_or_eq_of_mem_set hmem with hm | rfl
      · exact hr _ hm
      · rw [List.length_set]
        exact Dims.row_len ⟨hl, hr⟩ (by omega)
  · have heq : sset g y x v = g := by
      simp [sset, set_oob _ _ _ (Nat.le_of_not_lt hy)]
    rw [heq]
    exact h

theorem getD_replicate {α : Type} (n : Nat) (a : α) (j : Nat) (d : α) :
    (List.replicate n a).getD j d = if j < n then a else d := by
  induction n generalizing j with
  | zero => simp
  | succ n ih =>
    cases j with
    | zero => simp
    | succ j =>
      rw [List.replicate_succ, List.getD_cons_succ, ih]
      simp [Nat.succ_lt_succ_iff]

theorem get2_zeros (N j i : Nat) : get2 (zeros N) j i = 0 := by
  unfold get2 gget zeros
  rw [getD_replicate]
  by_cases hj : j < N
  · rw [if_pos hj, getD_replicate]
    split <;> rfl
  · rw [if_neg hj]
    rfl

/-! Claim C10, C6, C4, C8, C1, and the C2 counterexample. -/

/-- C10: a freshly constructed `Grid(N, K)` — before `fill_values()` — has
an all-zero playing grid and an all-zero solution, so `is_solved()` already
returns true and `num_empty_spaces()` returns `N²` on a grid that was never
generated or played.  (Proved for every `N`, in particular every `N ≥ 1`,
and every `K`.) -/
theorem c10_fresh_grid_solved (N K : Nat) :
    is_solved (Grid.init N K) = true ∧ num_empty_spaces (Grid.init N K) = N ^ 2 := by
  constructor
  · simp [is_solved, Grid.init]
  · unfold num_empty_spaces Grid.init zeros
    simp

/-- C6: `write_num(num, x, y)` sets playing-grid cell `(x, y)` to `num`
unconditionally — the mask is never consulted, so this holds in particular
when `check_if_given(x, y)` is true — changes no other playing-grid cell,
and leaves the solution and the mask untouched. -/
theorem c6_write_num_spec (G : Grid) (num x y : Nat)
    (hd : Dims G.N G.grid) (hx : x < G.N) (hy : y < G.N) :
    get2 (write_num G num x y).grid y x = num ∧
    (∀ x2, x2 < G.N → ∀ y2, y2 < G.N → ¬(x2 = x ∧ y2 = y) →
      get2 (write_num G num x y).grid y2 x2 = get2 G.grid y2 x2) ∧
    (write_num G num x y).solution = G.solution ∧
    (write_num G num x y).mask = G.mask := by
  refine ⟨?_, ?_, rfl, rfl⟩
  · exact gget_sset_self _ _ _ _ _ (by rw [hd.1]; omega)
      (by rw [Dims.row_len hd hy]; omega)
  · intro x2 hx2 y2 hy2 hne
    exact gget_sset_ne _ _ _ _ _ _ _ (by omega)

/-- C6 witness: writing 4 at `(0, 0)` of the state `Gw`, whose cell
`(0, 0)` is given, still writes through and touches nothing else. -/
theorem c6_write_num_spec_witness :
    check_if_given Gw 0 0 = true ∧
    get2 (write_num Gw 4 0 0).grid 0 0 = 4 ∧
    get2 (write_num Gw 4 0 0).grid 0 1 = get2 Gw.grid 0 1 ∧
    (write_num Gw 4 0 0).solution = Gw.solution ∧
    (write_num Gw 4 0 0).mask = Gw.mask := by
  have h := c6_write_num_spec Gw 4 0 0 (by decide) (by decide) (by decide)
  exact ⟨by decide, h.1, h.2.1 1 (by decide) 0 (by decide) (by decide), h.2.2.1, h.2.2.2⟩

/-- C4: `is_solved()` is true iff the playing grid equals the solution
element-wise; from a solved state, overwriting one non-given cell with a
value different from the solution's makes it false, and restoring the
solution's value makes it true again. -/
theorem c4_is_solved_spec (G : Grid) (x y v : Nat)
    (hd : Dims G.N G.grid) (hx : x < G.N) (hy : y < G.N) :
    (is_solved G = true ↔ G.grid = G.solution) ∧
    (is_solved G = true → check_if_given G x y = false →
      v ≠ get2 G.solution y x →
      is_solved (write_num G v x y) = false ∧
      is_solved (write_num (write_num G v x y) (get2 G.solution y x) x y) = true) := by
  have hiff : is_solved G = true ↔ G.grid = G.solution := by
    simp [is_solved]
  refine ⟨hiff, fun hs _ hv => ?_⟩
  have hgs : G.grid = G.solution := hiff.mp hs
  have hylen : y < G.grid.length := by rw [hd.1]; omega
  have hxlen : x < (G.grid.getD y []).length := by rw [Dims.row_len hd hy]; omega
  constructor
  · simp only [is_solved, write_num]
    rw [beq_eq_false_iff_ne]
    intro hcontra
    have : get2 (sset G.grid y x v) y x = get2 G.solution y x := by rw [hcontra]
    rw [get2, gget_sset_self _ _ _ _ _ hylen hxlen] at this
    exact hv this
  · simp only [is_solved, write_num]
    have h2 : sset (sset G.grid y x v) y x (get2 G.solution y x) = G.grid := by
      rw [sset_sset, ← hgs]
      exact sset_restore _ _ _ _ hylen hxlen
    rw [h2, hgs]
    simp

/-- C4 witness: `Gw` is solved; writing 9 into the non-given cell
`(x, y) = (1, 0)` (solution value 2) unsolves it, restoring 2 re-solves it. -/
theorem c4_is_solved_spec_witness :
    is_solved (write_num Gw 9 1 0) = false ∧
    is_solved (write_num (write_num Gw 9 1 0) (get2 Gw.solution 0 1) 1 0) = true := by
  have h := (c4_is_solved_spec Gw 1 0 9 (by decide) (by decide) (by decide)).2
    (by decide) (by decide) (by decide)
  exact h

/-- C8: the console shell accepts an entered digit iff `0 < num < 9`, i.e.
exactly the digits 1 through 8; every other parsed value — in particular
9 — is rejected, and a rejected value never reaches `add_num`: the state is
returned unchanged. -/
theorem c8_cli_digit_validation :
    (∀ num : Int, digit_ok num = true ↔ 1 ≤ num ∧ num ≤ 8) ∧
    digit_ok 9 = false ∧
    (∀ G : Grid, ∀ x y : Nat, ∀ num : Int, digit_ok num = false →
      cli_step G x y num = G) := by
  refine ⟨fun num => ?_, by decide, fun G x y num h => ?_⟩
  · unfold digit_ok
    rw [Bool.and_eq_true, decide_eq_true_iff, decide_eq_true_iff]
    omega
  · unfold cli_step
    rw [h]
    simp

/-- C8 witness: 5 is accepted, 9 is rejected, and submitting 9 at cell
`(0, 0)` of `Gz` leaves the state unchanged. -/
theorem c8_cli_digit_validation_witness :
    digit_ok 5 = true ∧ digit_ok 9 = false ∧ cli_step Gz 0 0 9 = Gz :=
  ⟨(c8_cli_digit_validation.1 5).mpr (by decide),
   c8_cli_digit_validation.2.1,
   c8_cli_digit_validation.2.2 Gz 0 0 9 (by decide)⟩

/-- C1: the claim asserts that in every copy `check_position(x, y, num)` is
true iff `num` is absent from row `y`, column `x`, and the full `√N × √N`
block of `(x, y)`.  `SudokuCLI.py` violates this (and its own docstring):
on the solution `c1_sol` (all zero except a 5 at `(2, 2)`), num 5 at
`(0, 0)` is absent from row 0 and column 0 but present in the full top-left
block, yet that file's `check_position` returns true, because its
`used_in_block` ranges `range(left, left + sqrt_N - 1)` miss the block's
last row and column. -/
theorem c1_cli_block_check_bug :
    check_position_cli 3 c1_sol 0 0 5 = true ∧
    used_in_block 3 c1_sol 0 0 5 = true ∧
    used_in_row c1_sol 0 5 = false ∧
    used_in_column c1_sol 0 5 = false := by
  refine ⟨by decide, by decide, by decide, by decide⟩

/-- C2 counterexample: the claim, "whenever the recursive fill succeeds the
resulting solution is valid … for each copy of the engine", is false for
the `SudokuCLI.py` copy: from the legitimate diagonal shuffle outcomes
`cex_b0 / cex_b1 / cex_b2` its fill returns `True` with solution `cex_sol`,
which is not a valid Sudoku solution (3 appears twice in the top-centre
block). -/
theorem c2_cli_counterexample :
    cex_b0.Perm (List.range' 1 9) ∧ cex_b1.Perm (List.range' 1 9) ∧
    cex_b2.Perm (List.range' 1 9) ∧
    fill_remaining 9 (check_position_cli 3) 82 2 0
      (fill_diagonal (zeros 9) cex_b0 cex_b1 cex_b2) = some (cex_sol, true) ∧
    ¬ Valid cex_sol := by
  exact ⟨by decide, by decide, by decide, by rfl, by decide⟩

/-! Counting lemmas for C7. -/

theorem sum_map_ind (l : List Nat) :
    (l.map (fun space => if space != 0 then 1 else 0)).sum
      = l.countP (fun v => v != 0) := by
  induction l with
  | nil => rfl
  | cons a t ih =>
    rw [List.map_cons, List.sum_cons, List.countP_cons, ih]
    cases h : (a != 0) <;> simp [h] <;> omega

theorem num_empty_spaces_eq (G : Grid) :
    num_empty_spaces G = G.N ^ 2 - count_nonzero G.grid := by
  unfold num_empty_spaces count_nonzero
  congr 1
  simp only [sum_map_ind]

theorem countP_set (l : List Nat) (p : Nat → Bool) (x v : Nat)
    (hx : x < l.length) :
    (l.set x v).countP p + (if p (l.getD x 0) then 1 else 0)
      = l.countP p + (if p v then 1 else 0) := by
  induction l generalizing x with
  | nil => simp at hx
  | cons a t ih =>
    cases x with
    | zero => simp [List.countP_cons]; omega
    | succ x =>
      have hx2 : x < t.length := by simpa using hx
      have := ih x hx2
      simp only [List.set, List.countP_cons, List.getD_cons_succ]
      omega

theorem sum_map_set {α : Type} (l : List α) (f : α → Nat) (i : Nat) (a d : α)
    (hi : i < l.length) :
    ((l.set i a).map f).sum + f (l.getD i d) = (l.map f).sum + f a := by
  induction l generalizing i with
  | nil => simp at hi
  | cons b t ih =>
    cases i with
    | zero => simp [List.set]; omega
    | succ i =>
      have hi2 : i < t.length := by simpa using hi
      have := ih i hi2
      simp only [List.set, List.map_cons, List.sum_cons, List.getD_cons_succ]
      omega

theorem count_nonzero_sset (g : List (List Nat)) (y x v : Nat)
    (hy : y < g.length) (hx : x < (g.getD y []).length) :
    count_nonzero (sset g y x v) + (if get2 g y x != 0 then 1 else 0)
      = count_nonzero g + (if v != 0 then 1 else 0) := by
  unfold count_nonzero sset
  have h1 := sum_map_set g (fun r => r.countP (fun w => w != 0)) y
    ((g.getD y []).set x v) [] hy
  have h2 := countP_set (g.getD y []) (fun w => w != 0) x v hx
  have h3 : get2 g y x = (g.getD y []).getD x 0 := rfl
  rw [h3]
  simp only at h1 h2 ⊢
  omega

theorem count_nonzero_le (N : Nat) (g : List (List Nat)) (hd : Dims N g) :
    count_nonzero g ≤ N ^ 2 := by
  rcases hd with ⟨hl, hr⟩
  have key : ∀ h : List (List Nat), (∀ r ∈ h, r.length = N) →
      count_nonzero h ≤ N * h.length := by
    intro h
    induction h with
    | nil => simp [count_nonzero]
    | cons r t ih =>
      intro hmem
      have h1 : r.countP (fun w => w != 0) ≤ N := by
        calc r.countP (fun w => w != 0) ≤ r.length := List.countP_le_length _
        _ = N := hmem r (List.mem_cons_self _ _)
      have h2 := ih (fun r2 hm => hmem r2 (List.mem_cons_of_mem _ hm))
      unfold count_nonzero at h2 ⊢
      simp only [List.map_cons, List.sum_cons, List.length_cons]
      have h3 : N * (t.length + 1) = N * t.length + N := by ring
      omega
  have := key g hr
  rw [hl, Nat.pow_two] at *
  omega

/-- C7: `num_empty_spaces()` equals `N²` minus the number of non-zero
playing-grid cells; writing a non-zero digit into a previously empty cell
decreases it by exactly one; `remove_num` on a previously filled cell
increases it by exactly one; and writing the same value twice into the same
cell gives the same count as writing it once. -/
theorem c7_num_empty_spaces_spec (G : Grid) (v x y : Nat)
    (hd : Dims G.N G.grid) (hx : x < G.N) (hy : y < G.N) :
    num_empty_spaces G = G.N ^ 2 - count_nonzero G.grid ∧
    (get2 G.grid y x = 0 → v ≠ 0 →
      num_empty_spaces (write_num G v x y) + 1 = num_empty_spaces G) ∧
    (get2 G.grid y x ≠ 0 →
      num_empty_spaces (remove_num G x y) = num_empty_spaces G + 1) ∧
    num_empty_spaces (write_num (write_num G v x y) v x y)
      = num_empty_spaces (write_num G v x y) := by
  have hylen : y < G.grid.length := by rw [hd.1]; omega
  have hxlen : x < (G.grid.getD y []).length := by rw [Dims.row_len hd hy]; omega
  have hle := count_nonzero_le G.N G.grid hd
  have hcs := count_nonzero_sset G.grid y x v hylen hxlen
  refine ⟨num_empty_spaces_eq G, ?_, ?_, ?_⟩
  · intro h0 hv
    have hstep : count_nonzero (sset G.grid y x v) = count_nonzero G.grid + 1 := by
      have hv2 : (v != 0) = true := by simpa using hv
      rw [h0, hv2] at hcs
      simp at hcs
      omega
    have hle2 := count_nonzero_le G.N (sset G.grid y x v) (dims_sset hd y x v)
    have e1 : num_empty_spaces (write_num G v x y)
        = G.N ^ 2 - count_nonzero (sset G.grid y x v) := num_empty_spaces_eq _
    have e2 := num_empty_spaces_eq G
    rw [e1, e2]
    omega
  · intro h0
    have hcs0 := count_nonzero_sset G.grid y x 0 hylen hxlen
    have hstep : count_nonzero (sset G.grid y x 0) + 1 = count_nonzero G.grid := by
      have h02 : (get2 G.grid y x != 0) = true := by simpa using h0
      rw [h02] at hcs0
      simp at hcs0
      omega
    have e1 : num_empty_spaces (remove_num G x y)
        = G.N ^ 2 - count_nonzero (sset G.grid y x 0) := num_empty_spaces_eq _
    have e2 := num_empty_spaces_eq G
    rw [e1, e2]
    omega
  · have hgrids : (write_num (write_num G v x y) v x y).grid
        = (write_num G v x y).grid := sset_sset _ _ _ _ _
    unfold num_empty_spaces
    rw [hgrids]
    rfl

/-- C7 witness: on the fresh state `Gz` (all cells empty) writing 5 at
`(1, 0)` drops the count by one; on the solved state `Gw` removing the
digit at `(1, 0)` raises it by one; double-writing matches single-writing.
-/
theorem c7_num_empty_spaces_spec_witness :
    num_empty_spaces Gz = Gz.N ^ 2 - count_nonzero Gz.grid ∧
    num_empty_spaces (write_num Gz 5 1 0) + 1 = num_empty_spaces Gz ∧
    num_empty_spaces (remove_num Gw 1 0) = num_empty_spaces Gw + 1 ∧
    num_empty_spaces (write_num (write_num Gz 5 1 0) 5 1 0)
      = num_empty_spaces (write_num Gz 5 1 0) := by
  have h1 := c7_num_empty_spaces_spec Gz 5 1 0 (by decide) (by decide) (by decide)
  have h2 := c7_num_empty_spaces_spec Gw 5 1 0 (by decide) (by decide) (by decide)
  exact ⟨h1.1, h1.2.1 (by decide) (by decide), h2.2.2.1 (by decide), h1.2.2.2⟩

/-! Fold lemmas for `clear_nums` (C5). -/

theorem foldl_range_succ {β : Type} (f : β → Nat → β) (b : β) (n : Nat) :
    (List.range (n + 1)).foldl f b = f ((List.range n).foldl f b) n := by
  rw [List.range_succ, List.foldl_append]
  rfl

theorem clear_inner (G : Grid) (i : Nat) (hi : i < G.N) (n : Nat) (hn : n ≤ G.N)
    (g : List (List Nat)) (hd : Dims G.N g) :
    Dims G.N ((List.range n).foldl
      (fun g2 j => if check_if_given G i j then g2 else sset g2 j i 0) g) ∧
    (∀ j2, j2 < G.N → ∀ i2, i2 < G.N →
      get2 ((List.range n).foldl
        (fun g2 j => if check_if_given G i j then g2 else sset g2 j i 0) g) j2 i2 =
        if i2 = i ∧ j2 < n ∧ check_if_given G i j2 = false then 0
        else get2 g j2 i2) := by
  induction n with
  | zero =>
    refine ⟨hd, fun j2 hj2 i2 hi2 => ?_⟩
    rw [if_neg (by omega)]
    rfl
  | succ n ih =>
    obtain ⟨ihd, ihg⟩ := ih (by omega)
    rw [foldl_range_succ]
    set F := (List.range n).foldl
      (fun g2 j => if check_if_given G i j then g2 else sset g2 j i 0) g with hF
    by_cases hgiven : check_if_given G i n = true
    · rw [if_pos hgiven]
      refine ⟨ihd, fun j2 hj2 i2 hi2 => ?_⟩
      rw [ihg j2 hj2 i2 hi2]
      by_cases h1 : i2 = i ∧ j2 < n ∧ check_if_given G i j2 = false
      · rw [if_pos h1, if_pos ⟨h1.1, by omega, h1.2.2⟩]
      · rw [if_neg h1]
        by_cases h2 : i2 = i ∧ j2 < n + 1 ∧ check_if_given G i j2 = false
        · exfalso
          have hlt : ¬ j2 < n := fun hl => h1 ⟨h2.1, hl, h2.2.2⟩
          have hj2n : j2 = n := by omega
          rw [hj2n] at h2
          rw [hgiven] at h2
          exact absurd h2.2.2 (by simp)
        · rw [if_neg h2]
    · rw [if_neg hgiven]
      have hgf : check_if_given G i n = false := by
        simpa using hgiven
      refine ⟨dims_sset ihd n i 0, fun j2 hj2 i2 hi2 => ?_⟩
      by_cases hcell : j2 = n ∧ i2 = i
      · rw [hcell.1, hcell.2]
        have hb1 : n < F.length := by rw [ihd.1]; omega
        have hb2 : i < (F.getD n []).length := by
          rw [Dims.row_len ihd (by omega : n < G.N)]
          omega
        have hself : get2 (sset F n i 0) n i = 0 :=
          gget_sset_self _ _ _ _ _ hb1 hb2
        rw [hself, if_pos ⟨rfl, by omega, hcell.1 ▸ hgf⟩]
      · have hne : n ≠ j2 ∨ i ≠ i2 := by
          rcases eq_or_ne n j2 with h | h
          · right
            intro hc
            exact hcell ⟨h.symm, hc.symm⟩
          · left
            exact h
        have hstep : get2 (sset F n i 0) j2 i2 = get2 F j2 i2 :=
          gget_sset_ne _ _ _ _ _ _ _ hne
        rw [hstep, ihg j2 hj2 i2 hi2]
        by_cases h1 : i2 = i ∧ j2 < n ∧ check_if_given G i j2 = false
        · rw [if_pos h1, if_pos ⟨h1.1, by omega, h1.2.2⟩]
        · rw [if_neg h1]
          by_cases h2 : i2 = i ∧ j2 < n + 1 ∧ check_if_given G i j2 = false
          · exfalso
            have hlt : ¬ j2 < n := fun hl => h1 ⟨h2.1, hl, h2.2.2⟩
            exact hcell ⟨by omega, h2.1⟩
          · rw [if_neg h2]

theorem clear_outer (G : Grid) (m : Nat) (hm : m ≤ G.N) (hd : Dims G.N G.grid) :
    Dims G.N ((List.range m).foldl
      (fun g i => (List.range G.N).foldl
        (fun g2 j => if check_if_given G i j then g2 else sset g2 j i 0) g) G.grid) ∧
    (∀ j2, j2 < G.N → ∀ i2, i2 < G.N →
      get2 ((List.range m).foldl
        (fun g i => (List.range G.N).foldl
          (fun g2 j => if check_if_given G i j then g2 else sset g2 j i 0) g) G.grid) j2 i2 =
        if i2 < m ∧ check_if_given G i2 j2 = false then 0
        else get2 G.grid j2 i2) := by
  induction m with
  | zero =>
    refine ⟨hd, fun j2 hj2 i2 hi2 => ?_⟩
    rw [if_neg (by omega)]
    rfl
  | succ m ih =>
    obtain ⟨ihd, ihg⟩ := ih (by omega)
    rw [foldl_range_succ]
    set F := (List.range m).foldl
      (fun g i => (List.range G.N).foldl
        (fun g2 j => if check_if_given G i j then g2 else sset g2 j i 0) g) G.grid with hF
    obtain ⟨cd, cg⟩ := clear_inner G m (by omega) G.N (le_refl _) F ihd
    refine ⟨cd, fun j2 hj2 i2 hi2 => ?_⟩
    rw [cg j2 hj2 i2 hi2]
    by_cases he : i2 = m
    · by_cases hgiv : check_if_given G m j2 = false
      · rw [if_pos ⟨he, hj2, hgiv⟩, if_pos ⟨by omega, he ▸ hgiv⟩]
      · rw [if_neg (by intro hc; exact hgiv hc.2.2), ihg j2 hj2 i2 hi2,
          if_neg (by intro hc; omega),
          if_neg (by intro hc; exact hgiv (he ▸ hc.2))]
    · rw [if_neg (by intro hc; exact he hc.1), ihg j2 hj2 i2 hi2]
      by_cases h1 : i2 < m ∧ check_if_given G i2 j2 = false
      · rw [if_pos h1, if_pos ⟨by omega, h1.2⟩]
      · rw [if_neg h1, if_neg (by intro hc; exact h1 ⟨by omega, hc.2⟩)]

/-- C5: `clear_nums()` zeroes the playing grid at every non-given cell,
keeps the playing-grid value at every given cell, and leaves the solution,
the mask and the notes untouched. -/
theorem c5_clear_nums_spec (G : Grid) (hd : Dims G.N G.grid) :
    (∀ x, x < G.N → ∀ y, y < G.N →
      get2 (clear_nums G).grid y x =
        if check_if_given G x y then get2 G.grid y x else 0) ∧
    (clear_nums G).solution = G.solution ∧
    (clear_nums G).mask = G.mask ∧
    (clear_nums G).notes = G.notes := by
  obtain ⟨_, hg⟩ := clear_outer G G.N (le_refl _) hd
  refine ⟨fun x hx y hy => ?_, rfl, rfl, rfl⟩
  rw [show (clear_nums G).grid = (List.range G.N).foldl
      (fun g i => (List.range G.N).foldl
        (fun g2 j => if check_if_given G i j then g2 else sset g2 j i 0) g) G.grid from rfl,
    hg y hy x hx]
  by_cases hgiv : check_if_given G x y = true
  · rw [if_neg (by intro hc; rw [hgiv] at hc; exact absurd hc.2 (by simp)), if_pos hgiv]
  · have hgf : check_if_given G x y = false := by simpa using hgiv
    rw [if_pos ⟨hx, hgf⟩, if_neg hgiv]

/-- C5 witness: clearing `Gw` (given cell `(0, 0)`, playing grid equal to
the solution) keeps the given cell's value 1, zeroes the non-given cell
`(1, 0)`, and leaves solution, mask and notes intact. -/
theorem c5_clear_nums_spec_witness :
    get2 (clear_nums Gw).grid 0 0 = get2 Gw.grid 0 0 ∧
    get2 (clear_nums Gw).grid 0 1 = 0 ∧
    (clear_nums Gw).solution = Gw.solution ∧
    (clear_nums Gw).mask = Gw.mask ∧
    (clear_nums Gw).notes = Gw.notes := by
  have h := c5_clear_nums_spec Gw (by decide)
  refine ⟨?_, ?_, h.2.1, h.2.2.1, h.2.2.2⟩
  · rw [h.1 0 (by decide) 0 (by decide)]
    decide
  · rw [h.1 1 (by decide) 0 (by decide)]
    decide

/-! The `remove_K_digits` sampling loop (C3). -/

theorem remove_go_spec :
    ∀ (stream : List (Nat × Nat)) (G : Grid) (i : Nat) (used : List (Nat × Nat)),
    i ≤ G.K →
    used.length = i →
    used.Nodup →
    (∀ p ∈ used, p.1 < G.N ∧ p.2 < G.N) →
    (∀ p ∈ stream, p.1 < G.N ∧ p.2 < G.N) →
    Dims G.N G.grid → Dims G.N G.mask →
    (∀ x, x < G.N → ∀ y, y < G.N →
      (gget G.mask y x false = true ↔ (x, y) ∈ used)) →
    (∀ p ∈ used, get2 G.grid p.2 p.1 = get2 G.solution p.2 p.1) →
    (∀ x, x < G.N → ∀ y, y < G.N → (x, y) ∉ used → get2 G.grid y x = 0) →
    (remove_go G i used stream).2 = G.K →
    ∃ used2 : List (Nat × Nat),
      used2.Nodup ∧ used2.length = G.K ∧
      (∀ p ∈ used2, p.1 < G.N ∧ p.2 < G.N) ∧
      (remove_go G i used stream).1.N = G.N ∧
      (remove_go G i used stream).1.K = G.K ∧
      (remove_go G i used stream).1.solution = G.solution ∧
      Dims G.N (remove_go G i used stream).1.grid ∧
      Dims G.N (remove_go G i used stream).1.mask ∧
      (∀ x, x < G.N → ∀ y, y < G.N →
        (gget (remove_go G i used stream).1.mask y x false = true ↔ (x, y) ∈ used2)) ∧
      (∀ p ∈ used2, get2 (remove_go G i used stream).1.grid p.2 p.1
          = get2 (remove_go G i used stream).1.solution p.2 p.1) ∧
      (∀ x, x < G.N → ∀ y, y < G.N → (x, y) ∉ used2 →
        get2 (remove_go G i used stream).1.grid y x = 0) := by
  intro stream
  induction stream with
  | nil =>
    intro G i used hK hlen hnd hrng _ hdg hdm hmask hgiven hz hdone
    have hiK2 : i = G.K := hdone
    exact ⟨used, hnd, by omega, hrng, rfl, rfl, rfl, hdg, hdm, hmask, hgiven, hz⟩
  | cons p rest ih =>
    intro G i used hK hlen hnd hrng hstr hdg hdm hmask hgiven hz hdone
    by_cases hiK : i < G.K
    · by_cases hmem : p ∈ used
      · rw [show remove_go G i used (p :: rest) = remove_go G i used rest by
          simp only [remove_go]; rw [if_pos hiK, if_pos hmem]] at hdone ⊢
        exact ih G i used hK hlen hnd hrng
          (fun q hq => hstr q (List.mem_cons_of_mem _ hq)) hdg hdm hmask hgiven hz hdone
      · have hp := hstr p (List.mem_cons_self _ _)
        have hstep : remove_go G i used (p :: rest) =
            remove_go
              ⟨G.N, G.K, G.sqrt_N, G.solution,
                sset G.grid p.2 p.1 (get2 G.solution p.2 p.1),
                sset G.mask p.2 p.1 true, G.notes⟩
              (i + 1) (p :: used) rest := by
          simp only [remove_go]
          rw [if_pos hiK, if_neg hmem]
        rw [hstep] at hdone ⊢
        have hmlen : p.2 < G.mask.length := by rw [hdm.1]; exact hp.2
        have hmrow : p.1 < (G.mask.getD p.2 []).length := by
          rw [Dims.row_len hdm hp.2]; exact hp.1
        have hglen : p.2 < G.grid.length := by rw [hdg.1]; exact hp.2
        have hgrow : p.1 < (G.grid.getD p.2 []).length := by
          rw [Dims.row_len hdg hp.2]; exact hp.1
        refine ih ⟨G.N, G.K, G.sqrt_N, G.solution,
            sset G.grid p.2 p.1 (get2 G.solution p.2 p.1),
            sset G.mask p.2 p.1 true, G.notes⟩
          (i + 1) (p :: used) hiK (by simp [hlen]) (by simp [hnd, hmem])
          (fun q hq => ?_) (fun q hq => hstr q (List.mem_cons_of_mem _ hq))
          (dims_sset hdg _ _ _) (dims_sset hdm _ _ _)
          (fun x hx y hy => ?_) (fun q hq => ?_) (fun x hx y hy hnm => ?_) hdone
        · rcases List.mem_cons.mp hq with rfl | hq2
          · exact hp
          · exact hrng q hq2
        · by_cases hpq : (x, y) = p
          · have hx2 : x = p.1 := by rw [← hpq]
            have hy2 : y = p.2 := by rw [← hpq]
            rw [hx2, hy2, gget_sset_self _ _ _ _ _ hmlen hmrow]
            simp [hpq]
          · have hcomp : ¬(x = p.1 ∧ y = p.2) := by
              intro hc
              exact hpq (by rw [hc.1, hc.2])
            rw [gget_sset_ne _ _ _ _ _ _ _ (by omega), hmask x hx y hy,
              List.mem_cons]
            constructor
            · intro h2
              exact Or.inr h2
            · intro h2
              rcases h2 with h2 | h2
              · exact absurd h2 hpq
              · exact h2
        · rcases List.mem_cons.mp hq with rfl | hq2
          · exact gget_sset_self _ _ _ _ _ hglen hgrow
          · have hqp : q ≠ p := fun hc => hmem (hc ▸ hq2)
            have hcomp : ¬(q.1 = p.1 ∧ q.2 = p.2) := by
              intro hc
              exact hqp (Prod.ext hc.1 hc.2)
            rw [show get2 (sset G.grid p.2 p.1 (get2 G.solution p.2 p.1)) q.2 q.1
                = gget (sset G.grid p.2 p.1 (get2 G.solution p.2 p.1)) q.2 q.1 0 from rfl,
              gget_sset_ne _ _ _ _ _ _ _ (by omega)]
            exact hgiven q hq2
        · have hnp : (x, y) ≠ p := fun hc => hnm (hc ▸ List.mem_cons_self _ _)
          have hcomp : ¬(x = p.1 ∧ y = p.2) := by
            intro hc
            exact hnp (by rw [hc.1, hc.2])
          rw [show get2 (sset G.grid p.2 p.1 (get2 G.solution p.2 p.1)) y x
              = gget (sset G.grid p.2 p.1 (get2 G.solution p.2 p.1)) y x 0 from rfl,
            gget_sset_ne _ _ _ _ _ _ _ (by omega)]
          exact hz x hx y hy (fun hc => hnm (List.mem_cons_of_mem _ hc))
    · rw [show remove_go G i used (p :: rest) = (G, i) by
        simp only [remove_go]; rw [if_neg hiK]] at hdone ⊢
      exact ⟨used, hnd, by simp at hdone; omega, hrng, rfl, rfl, rfl, hdg, hdm,
        hmask, hgiven, hz⟩

/-- C3: starting from a state whose playing grid and mask are untouched
(all zero / all false, as after the solution-filling steps of
`fill_values()`), a `remove_K_digits` run that collects its `K` samples
(final counter = `K`) marks exactly `K` distinct cells given; each given
cell's playing-grid value equals the solution's value there, every other
cell keeps playing-grid value 0 and mask false, and the solution is
untouched. -/
theorem c3_remove_K_digits_spec (G : Grid) (stream : List (Nat × Nat))
    (hzero : ∀ x, x < G.N → ∀ y, y < G.N → get2 G.grid y x = 0)
    (hmask : ∀ x, x < G.N → ∀ y, y < G.N → gget G.mask y x false = false)
    (hdg : Dims G.N G.grid) (hdm : Dims G.N G.mask)
    (hstream : ∀ p ∈ stream, p.1 < G.N ∧ p.2 < G.N)
    (hdone : (remove_go G 0 [] stream).2 = G.K) :
    mask_count (remove_K_digits G stream) = G.K ∧
    (remove_K_digits G stream).solution = G.solution ∧
    (∀ x, x < G.N → ∀ y, y < G.N →
      (gget (remove_K_digits G stream).mask y x false = true →
        get2 (remove_K_digits G stream).grid y x
          = get2 (remove_K_digits G stream).solution y x) ∧
      (gget (remove_K_digits G stream).mask y x false = false →
        get2 (remove_K_digits G stream).grid y x = 0)) := by
  obtain ⟨used2, hnd2, hlen2, hrng2, hN2, hK2, hsol2, hdg2, hdm2, hmk2, hgiv2, hz2⟩ :=
    remove_go_spec stream G 0 [] (by omega) rfl (by simp) (by simp) hstream hdg hdm
      (by
        intro x hx y hy
        rw [hmask x hx y hy]
        simp)
      (by simp) (fun x hx y hy _ => hzero x hx y hy) hdone
  rw [show remove_K_digits G stream = (remove_go G 0 [] stream).1 from rfl]
  refine ⟨?_, hsol2, fun x hx y hy => ⟨fun hm => ?_, fun hm => ?_⟩⟩
  · unfold mask_count
    have hset : (Finset.range (remove_go G 0 [] stream).1.N ×ˢ
        Finset.range (remove_go G 0 [] stream).1.N).filter
          (fun p => gget (remove_go G 0 [] stream).1.mask p.2 p.1 false = true)
        = used2.toFinset := by
      ext p
      simp only [Finset.mem_filter, Finset.mem_product, Finset.mem_range,
        List.mem_toFinset, hN2]
      constructor
      · intro ⟨⟨hx, hy⟩, hmm⟩
        have := (hmk2 p.1 hx p.2 hy).mp hmm
        simpa using this
      · intro hmem
        have hr := hrng2 p hmem
        refine ⟨⟨hr.1, hr.2⟩, ?_⟩
        rw [hmk2 p.1 hr.1 p.2 hr.2]
        simpa using hmem
    rw [hset, List.toFinset_card_of_nodup hnd2, hlen2]
  · have hmem := (hmk2 x hx y hy).mp hm
    exact hgiv2 (x, y) hmem
  · have hnm : (x, y) ∉ used2 := by
      intro hc
      rw [(hmk2 x hx y hy).mpr hc] at hm
      exact absurd hm (by simp)
    exact hz2 x hx y hy hnm

/-- C3 witness: on the fresh state `Gz` (`K = 2`) with sample stream
`(0,0), (0,0), (4,7)` — the duplicate draw is skipped — exactly two cells
become given, each holding its solution value, and the rest stay empty. -/
theorem c3_remove_K_digits_spec_witness :
    mask_count (remove_K_digits Gz [(0, 0), (0, 0), (4, 7)]) = Gz.K ∧
    (remove_K_digits Gz [(0, 0), (0, 0), (4, 7)]).solution = Gz.solution ∧
    get2 (remove_K_digits Gz [(0, 0), (0, 0), (4, 7)]).grid 0 0
      = get2 (remove_K_digits Gz [(0, 0), (0, 0), (4, 7)]).solution 0 0 ∧
    get2 (remove_K_digits Gz [(0, 0), (0, 0), (4, 7)]).grid 5 5 = 0 := by
  have h := c3_remove_K_digits_spec Gz [(0, 0), (0, 0), (4, 7)]
    (by decide) (by decide) (by decide) (by decide) (by decide) (by decide)
  exact ⟨h.1, h.2.1, (h.2.2 0 (by decide) 0 (by decide)).1 (by decide),
    (h.2.2 5 (by decide) 5 (by decide)).2 (by decide)⟩

/-! Termination and depth bound of the recursive fill (C9). -/

theorem try_nums_ne_none (chk : List (List Nat) → Nat → Nat → Nat → Bool)
    (recur : List (List Nat) → Option (List (List Nat) × Bool))
    (x y : Nat) (h : ∀ s, recur s ≠ none) :
    ∀ (nums : List Nat) (sol : List (List Nat)),
      try_nums chk recur x y sol nums ≠ none := by
  intro nums
  induction nums with
  | nil =>
    intro sol
    simp [try_nums]
  | cons n ns ih =>
    intro sol
    simp only [try_nums]
    by_cases hc : chk sol x y n = true
    · rw [if_pos hc]
      rcases hrec : recur (sset sol y x n) with _ | ⟨s2, b⟩
      · exact absurd hrec (h _)
      · cases b
        · exact ih _
        · simp
    · rw [if_neg hc]
      exact ih _

theorem fill_remaining_ne_none (N : Nat)
    (chk : List (List Nat) → Nat → Nat → Nat → Bool) :
    ∀ (fuel x y : Nat) (sol : List (List Nat)),
      x ≤ N → y < N → N * (N - 1 - y) + (N - x) + 1 ≤ fuel →
      fill_remaining N chk fuel x y sol ≠ none := by
  intro fuel
  induction fuel with
  | zero =>
    intro x y sol hx hy hf
    exact absurd hf (by omega)
  | succ fuel ih =>
    intro x y sol hx hy hf
    simp only [fill_remaining]
    by_cases hb : (y == N - 1 && x == N) = true
    · rw [if_pos hb]
      simp
    · rw [if_neg hb]
      have hb2 : ¬(y = N - 1 ∧ x = N) := by
        intro hc
        exact hb (by simp [hc.1, hc.2])
      by_cases hxN : x = N
      · have hxe : (x == N) = true := by simp [hxN]
        rw [hxe]
        simp only [if_true]
        have hyne : y ≠ N - 1 := fun hc => hb2 ⟨hc, hxN⟩
        have hy2 : y + 1 < N := by omega
        have hfuel2 : N * (N - 1 - (y + 1)) + (N - 1) + 1 ≤ fuel := by
          obtain ⟨a, ha⟩ : ∃ a, N - 1 - y = a + 1 := ⟨N - 2 - y, by omega⟩
          have e1 : N * (N - 1 - y) = N * a + N := by rw [ha]; ring
          have e2 : N * (N - 1 - (y + 1)) = N * a := by
            rw [show N - 1 - (y + 1) = a from by omega]
          omega
        have hrec : ∀ s, fill_remaining N chk fuel (0 + 1) (y + 1) s ≠ none :=
          fun s => ih (0 + 1) (y + 1) s (by omega) hy2 (by
            rw [show N - (0 + 1) = N - 1 from by omega]
            exact hfuel2)
        by_cases hcell : (get2 sol (y + 1) 0 != 0) = true
        · rw [if_pos hcell]
          exact hrec sol
        · rw [if_neg hcell]
          exact try_nums_ne_none chk _ 0 (y + 1) hrec _ sol
      · have hxe : (x == N) = false := by simp [hxN]
        rw [hxe]
        simp only [Bool.false_eq_true, if_false]
        have hfuel2 : N * (N - 1 - y) + (N - (x + 1)) + 1 ≤ fuel := by omega
        have hrec : ∀ s, fill_remaining N chk fuel (x + 1) y s ≠ none :=
          fun s => ih (x + 1) y s (by omega) hy hfuel2
        by_cases hcell : (get2 sol y x != 0) = true
        · rw [if_pos hcell]
          exact hrec sol
        · rw [if_neg hcell]
          exact try_nums_ne_none chk _ x y hrec _ sol

/-- C9: `fill_remaining(x, y)` with `0 ≤ y < N` and `0 ≤ x ≤ N` always
terminates with a boolean result, whatever the solution array's contents
and whichever copy's `check_position` is in use, and the recursion nests at
most `N²` calls below the initial frame: with fuel `N² + 1` — one unit per
call frame — the fuel never runs out. -/
theorem c9_fill_remaining_terminates (N : Nat)
    (chk : List (List Nat) → Nat → Nat → Nat → Bool)
    (x y : Nat) (sol : List (List Nat)) (hx : x ≤ N) (hy : y < N) :
    fill_remaining N chk (N ^ 2 + 1) x y sol ≠ none := by
  apply fill_remaining_ne_none N chk _ x y sol hx hy
  obtain ⟨m, rfl⟩ : ∃ m, N = m + 1 := ⟨N - 1, by omega⟩
  have e : (m + 1) ^ 2 = m * m + 2 * m + 1 := by ring
  have h1 : (m + 1) * (m + 1 - 1 - y) ≤ (m + 1) * m :=
    Nat.mul_le_mul_left _ (by omega)
  have h2 : (m + 1) * m = m * m + m := by ring
  omega

/-- C9 witness: the real engine's call `fill_remaining(0, 0)` on a 9×9
array completes within fuel `82 = 9² + 1`. -/
theorem c9_fill_remaining_terminates_witness :
    fill_remaining 9 (check_position 3) (9 ^ 2 + 1) 0 0 (zeros 9) ≠ none :=
  c9_fill_remaining_terminates 9 (check_position 3) 0 0 (zeros 9)
    (by omega) (by omega)

/-! Unit (row / column / block) semantics of the constraint checks (C2). -/

theorem map_getD_range {α : Type} (l : List α) (d : α) :
    (List.range l.length).map (fun i => l.getD i d) = l := by
  induction l with
  | nil => simp
  | cons a t ih =>
    rw [List.length_cons, List.range_succ_eq_map]
    simp only [List.map_cons, List.getD_cons_zero, List.map_map]
    congr 1

theorem unitVals_cons (g : List (List Nat)) (py px : Nat) (ps : List (Nat × Nat)) :
    unitVals g ((py, px) :: ps) = get2 g py px :: unitVals g ps := rfl

theorem unitVals_length (g : List (List Nat)) (coords : List (Nat × Nat)) :
    (unitVals g coords).length = coords.length := by
  simp [unitVals]

theorem unitVals_row (g : List (List Nat)) (hd : Dims 9 g) (y : Nat) (hy : y < 9) :
    unitVals g (rowCoords y) = g.getD y [] := by
  unfold unitVals rowCoords
  rw [List.map_map]
  have hc : ((fun p : Nat × Nat => get2 g p.1 p.2) ∘ fun x => (y, x))
      = fun x => (g.getD y []).getD x 0 := by
    funext x
    rfl
  rw [hc]
  have hlen := Dims.row_len hd hy
  rw [← hlen, map_getD_range]

theorem unitVals_col (g : List (List Nat)) (hd : Dims 9 g) (x : Nat) :
    unitVals g (colCoords x) = g.map (fun r => r.getD x 0) := by
  unfold unitVals colCoords
  rw [List.map_map]
  have hc : ((fun p : Nat × Nat => get2 g p.1 p.2) ∘ fun y => (y, x))
      = (fun r : List Nat => r.getD x 0) ∘ (fun y => g.getD y []) := by
    funext y
    rfl
  rw [hc, ← List.map_map, ← hd.1, map_getD_range]

theorem sub_mod3 (x : Nat) : x - x % 3 = 3 * (x / 3) := by omega

theorem used_in_row_count (g : List (List Nat)) (row num : Nat)
    (h : used_in_row g row num = false) : (g.getD row []).count num = 0 := by
  simpa [used_in_row] using h

theorem used_in_column_count (g : List (List Nat)) (col num : Nat)
    (h : used_in_column g col num = false) :
    (g.map (fun r => r.getD col 0)).count num = 0 := by
  simpa [used_in_column] using h

theorem used_in_block_cells (g : List (List Nat)) (x y num : Nat)
    (h : used_in_block 3 g x y num = false) :
    ∀ dx, dx < 3 → ∀ dy, dy < 3 →
      get2 g (y - y % 3 + dy) (x - x % 3 + dx) ≠ num := by
  intro dx hdx dy hdy heq
  have : used_in_block 3 g x y num = true := by
    unfold used_in_block
    rw [List.any_eq_true]
    exact ⟨dx, List.mem_range.mpr hdx, by
      rw [List.any_eq_true]
      exact ⟨dy, List.mem_range.mpr hdy, by simp [heq]⟩⟩
  rw [h] at this
  exact Bool.false_ne_true this

/-! Coordinate bookkeeping, checked by computation. -/

theorem row_count_self : ∀ y < 9, ∀ x < 9, (rowCoords y).count (y, x) = 1 := by decide

theorem row_not_mem (y x y2 : Nat) (h : y2 ≠ y) : (y, x) ∉ rowCoords y2 := by
  unfold rowCoords
  rw [List.mem_map]
  rintro ⟨x2, _, heq⟩
  rw [Prod.mk.injEq] at heq
  exact h heq.1

theorem col_count_self : ∀ y < 9, ∀ x < 9, (colCoords x).count (y, x) = 1 := by decide

theorem col_not_mem (y x x2 : Nat) (h : x2 ≠ x) : (y, x) ∉ colCoords x2 := by
  unfold colCoords
  rw [List.mem_map]
  rintro ⟨y2, _, heq⟩
  rw [Prod.mk.injEq] at heq
  exact h heq.2

theorem blk_count_self :
    ∀ y < 9, ∀ x < 9, (blockCoords (y / 3) (x / 3)).count (y, x) = 1 := by decide

theorem blk_mem_div (bi bj : Nat) (p : Nat × Nat) (hp : p ∈ blockCoords bi bj) :
    p.1 / 3 = bi ∧ p.2 / 3 = bj := by
  unfold blockCoords at hp
  rw [List.mem_flatMap] at hp
  obtain ⟨dy, hdy, hp2⟩ := hp
  rw [List.mem_map] at hp2
  obtain ⟨dx, hdx, rfl⟩ := hp2
  rw [List.mem_range] at hdy hdx
  constructor
  · show (3 * bi + dy) / 3 = bi
    omega
  · show (3 * bj + dx) / 3 = bj
    omega

theorem blk_not_mem (y x bi bj : Nat) (h : ¬(bi = y / 3 ∧ bj = x / 3)) :
    (y, x) ∉ blockCoords bi bj := by
  intro hmem
  have hd := blk_mem_div bi bj (y, x) hmem
  exact h ⟨hd.1.symm, hd.2.symm⟩

theorem blk_mem_bounds :
    ∀ bi < 3, ∀ bj < 3, ∀ p ∈ blockCoords bi bj, p.1 < 9 ∧ p.2 < 9 := by decide

theorem row_mem_bounds : ∀ y < 9, ∀ p ∈ rowCoords y, p.1 < 9 ∧ p.2 < 9 := by decide

theorem col_mem_bounds : ∀ x < 9, ∀ p ∈ colCoords x, p.1 < 9 ∧ p.2 < 9 := by decide

theorem rowCoords_length (y : Nat) : (rowCoords y).length = 9 := by
  simp [rowCoords]

theorem colCoords_length (x : Nat) : (colCoords x).length = 9 := by
  simp [colCoords]

theorem blockCoords_length : ∀ bi < 3, ∀ bj < 3, (blockCoords bi bj).length = 9 := by
  decide

/-! Counting a unit's values across a single cell write. -/

theorem unitVals_sset_not_mem (g : List (List Nat)) (y x v : Nat)
    (coords : List (Nat × Nat)) (h : (y, x) ∉ coords) :
    unitVals (sset g y x v) coords = unitVals g coords := by
  unfold unitVals
  apply List.map_congr_left
  intro p hp
  rcases eq_or_ne y p.1 with h1 | h1
  · rcases eq_or_ne x p.2 with h2 | h2
    · exfalso
      apply h
      rw [h1, h2]
      simpa using hp
    · exact gget_sset_ne _ _ _ _ _ _ _ (Or.inr h2)
  · exact gget_sset_ne _ _ _ _ _ _ _ (Or.inl h1)

theorem count_unitVals_sset (g : List (List Nat)) (y x n : Nat)
    (coords : List (Nat × Nat)) (hone : coords.count (y, x) = 1)
    (hy : y < g.length) (hx : x < (g.getD y []).length) (v : Nat) :
    (unitVals (sset g y x n) coords).count v + (if get2 g y x = v then 1 else 0)
      = (unitVals g coords).count v + (if n = v then 1 else 0) := by
  induction coords with
  | nil => simp at hone
  | cons p ps ih =>
    obtain ⟨py, px⟩ := p
    rw [unitVals_cons, unitVals_cons, List.count_cons, List.count_cons]
    simp only [beq_iff_eq]
    by_cases hp : (py, px) = (y, x)
    · rw [Prod.mk.injEq] at hp
      obtain ⟨rfl, rfl⟩ := hp
      have hzero : ps.count (py, px) = 0 := by
        rw [List.count_cons] at hone
        simp at hone
        exact hone
      have hnm : (py, px) ∉ ps := List.count_eq_zero.mp hzero
      have hhead : get2 (sset g py px n) py px = n :=
        gget_sset_self _ _ _ _ _ hy hx
      have htails := unitVals_sset_not_mem g py px n ps hnm
      rw [hhead, htails]
      omega
    · have hone2 : ps.count (y, x) = 1 := by
        rw [List.count_cons] at hone
        simp only [beq_iff_eq] at hone
        rw [if_neg hp] at hone
        omega
      have hhne : y ≠ py ∨ x ≠ px := by
        by_contra hc
        push_neg at hc
        exact hp (by rw [hc.1, hc.2])
      have hhead : get2 (sset g y x n) py px = get2 g py px :=
        gget_sset_ne _ _ _ _ _ _ _ hhne
      have := ih hone2
      rw [hhead]
      omega

/-! A successful `check_position` write preserves the fill invariants. -/

theorem check_preserves (g : List (List Nat)) (hd : Dims 9 g) (x y n : Nat)
    (hx : x < 9) (hy : y < 9) (hn1 : 1 ≤ n) (hn9 : n ≤ 9)
    (h0 : get2 g y x = 0)
    (hchk : check_position 3 g x y n = true)
    (hA : AtMost g) :
    AtMost (sset g y x n) := by
  have hlen : y < g.length := by rw [hd.1]; omega
  have hrowlen : x < (g.getD y []).length := by rw [Dims.row_len hd hy]; omega
  have hchk2 : used_in_row g y n = false ∧ used_in_column g x n = false ∧
      used_in_block 3 g x y n = false := by
    unfold check_position at hchk
    simp only [Bool.and_eq_true, Bool.not_eq_true'] at hchk
    exact ⟨hchk.1.1, hchk.1.2, hchk.2⟩
  have hrow0 : (unitVals g (rowCoords y)).count n = 0 := by
    rw [unitVals_row g hd y hy]
    exact used_in_row_count _ _ _ hchk2.1
  have hcol0 : (unitVals g (colCoords x)).count n = 0 := by
    rw [unitVals_col g hd x]
    exact used_in_column_count _ _ _ hchk2.2.1
  have hblk0 : (unitVals g (blockCoords (y / 3) (x / 3))).count n = 0 := by
    rw [List.count_eq_zero]
    intro hmem
    unfold unitVals at hmem
    rw [List.mem_map] at hmem
    obtain ⟨p, hp, hpe⟩ := hmem
    unfold blockCoords at hp
    rw [List.mem_flatMap] at hp
    obtain ⟨dy, hdy, hp2⟩ := hp
    rw [List.mem_map] at hp2
    obtain ⟨dx, hdx, rfl⟩ := hp2
    rw [List.mem_range] at hdy hdx
    have hcell := used_in_block_cells g x y n hchk2.2.2 dx hdx dy hdy
    rw [sub_mod3, sub_mod3] at hcell
    exact hcell hpe
  intro v hv10 hv1
  have hold : (if get2 g y x = v then 1 else 0) = 0 := by
    rw [h0, if_neg (by omega)]
  refine ⟨fun y2 hy2 => ?_, fun x2 hx2 => ?_, fun bi hbi bj hbj => ?_⟩
  · by_cases he : y2 = y
    · subst he
      have hc := count_unitVals_sset g y2 x n (rowCoords y2)
        (row_count_self y2 hy2 x hx) hlen hrowlen v
      rw [hold] at hc
      by_cases hv : n = v
      · rw [if_pos hv] at hc
        rw [hv] at hrow0
        omega
      · rw [if_neg hv] at hc
        have := (hA v hv10 hv1).1 y2 hy2
        omega
    · rw [unitVals_sset_not_mem g y x n _ (row_not_mem y x y2 he)]
      exact (hA v hv10 hv1).1 y2 hy2
  · by_cases he : x2 = x
    · subst he
      have hc := count_unitVals_sset g y x2 n (colCoords x2)
        (col_count_self y hy x2 hx) hlen hrowlen v
      rw [hold] at hc
      by_cases hv : n = v
      · rw [if_pos hv] at hc
        rw [hv] at hcol0
        omega
      · rw [if_neg hv] at hc
        have := (hA v hv10 hv1).2.1 x2 hx2
        omega
    · rw [unitVals_sset_not_mem g y x n _ (col_not_mem y x x2 he)]
      exact (hA v hv10 hv1).2.1 x2 hx2
  · by_cases he : bi = y / 3 ∧ bj = x / 3
    · obtain ⟨rfl, rfl⟩ := he
      have hc := count_unitVals_sset g y x n (blockCoords (y / 3) (x / 3))
        (blk_count_self y hy x hx) hlen hrowlen v
      rw [hold] at hc
      by_cases hv : n = v
      · rw [if_pos hv] at hc
        rw [hv] at hblk0
        omega
      · rw [if_neg hv] at hc
        have := (hA v hv10 hv1).2.2 (y / 3) (by omega) (x / 3) (by omega)
        omega
    · rw [unitVals_sset_not_mem g y x n _ (blk_not_mem y x bi bj he)]
      exact (hA v hv10 hv1).2.2 bi hbi bj hbj

theorem inrange_sset (g : List (List Nat)) (hd : Dims 9 g) (y x n : Nat)
    (hy : y < 9) (hx : x < 9) (hn : n ≤ 9) (hR : InRange9 g) :
    InRange9 (sset g y x n) := by
  intro j hj i hi
  by_cases he : j = y ∧ i = x
  · obtain ⟨rfl, rfl⟩ := he
    have h1 : j < g.length := by rw [hd.1]; omega
    have h2 : i < (g.getD j []).length := by rw [Dims.row_len hd hj]; omega
    have hs : get2 (sset g j i n) j i = n := gget_sset_self _ _ _ _ _ h1 h2
    rw [hs]
    exact hn
  · have hne : y ≠ j ∨ x ≠ i := by omega
    have hs : get2 (sset g y x n) j i = get2 g j i :=
      gget_sset_ne _ _ _ _ _ _ _ hne
    rw [hs]
    exact hR j hj i hi

/-! Unfolding equations of `fill_remaining` (N = 9). -/

theorem fill_remaining_eq_base (chk : List (List Nat) → Nat → Nat → Nat → Bool)
    (fuel x y : Nat) (sol : List (List Nat)) (h : y = 8 ∧ x = 9) :
    fill_remaining 9 chk (fuel + 1) x y sol = some (sol, true) := by
  obtain ⟨rfl, rfl⟩ := h
  simp [fill_remaining]

theorem fill_remaining_eq_wrap (chk : List (List Nat) → Nat → Nat → Nat → Bool)
    (fuel x y : Nat) (sol : List (List Nat)) (hb : ¬(y = 8 ∧ x = 9)) (hx : x = 9) :
    fill_remaining 9 chk (fuel + 1) x y sol =
      if get2 sol (y + 1) 0 != 0 then fill_remaining 9 chk fuel 1 (y + 1) sol
      else try_nums chk (fill_remaining 9 chk fuel 1 (y + 1)) 0 (y + 1) sol
        (List.range' 1 9) := by
  subst hx
  have hy : y ≠ 8 := fun hc => hb ⟨hc, rfl⟩
  have hbe : (y == 8 && (9 : Nat) == 9) = false := by simp [hy]
  simp only [fill_remaining]
  rw [show ((9 : Nat) - 1) = 8 from rfl, hbe]
  simp

theorem fill_remaining_eq_step (chk : List (List Nat) → Nat → Nat → Nat → Bool)
    (fuel x y : Nat) (sol : List (List Nat)) (hx : x ≠ 9) :
    fill_remaining 9 chk (fuel + 1) x y sol =
      if get2 sol y x != 0 then fill_remaining 9 chk fuel (x + 1) y sol
      else try_nums chk (fill_remaining 9 chk fuel (x + 1) y) x y sol
        (List.range' 1 9) := by
  have hbe : (y == 8 && x == 9) = false := by simp [hx]
  simp only [fill_remaining]
  rw [show ((9 : Nat) - 1) = 8 from rfl, hbe]
  have hxe : (x == 9) = false := by simp [hx]
  simp [hxe]

/-! The candidate loop and the recursive fill preserve the invariants and
fill every cell from the scan position onwards (C2). -/

theorem try_go (x y : Nat) (hx : x < 9) (hy : y < 9)
    (recur : List (List Nat) → Option (List (List Nat) × Bool))
    (hrec : ∀ (sol : List (List Nat)) (r : List (List Nat) × Bool),
      Dims 9 sol → AtMost sol → InRange9 sol →
      recur sol = some r →
      (r.2 = false → r.1 = sol) ∧
      (r.2 = true → Dims 9 r.1 ∧ AtMost r.1 ∧ InRange9 r.1 ∧
        (∀ j, j < 9 → ∀ i, i < 9 → 9 * y + x + 1 ≤ 9 * j + i → get2 r.1 j i ≠ 0) ∧
        (∀ j, j < 9 → ∀ i, i < 9 → 9 * j + i < 9 * y + x + 1 →
          get2 r.1 j i = get2 sol j i))) :
    ∀ (nums : List Nat) (sol : List (List Nat)) (r : List (List Nat) × Bool),
      (∀ m ∈ nums, 1 ≤ m ∧ m ≤ 9) →
      Dims 9 sol → AtMost sol → InRange9 sol → get2 sol y x = 0 →
      try_nums (check_position 3) recur x y sol nums = some r →
      (r.2 = false → r.1 = sol) ∧
      (r.2 = true → Dims 9 r.1 ∧ AtMost r.1 ∧ InRange9 r.1 ∧
        (∀ j, j < 9 → ∀ i, i < 9 → 9 * y + x ≤ 9 * j + i → get2 r.1 j i ≠ 0) ∧
        (∀ j, j < 9 → ∀ i, i < 9 → 9 * j + i < 9 * y + x →
          get2 r.1 j i = get2 sol j i)) := by
  intro nums
  induction nums with
  | nil =>
    intro sol r hmem hd hA hR h0 hrun
    have hre : (sol, false) = r := Option.some.inj hrun
    refine ⟨fun _ => by rw [← hre], fun ht => ?_⟩
    rw [← hre] at ht
    exact absurd ht (by simp)
  | cons m ms ih =>
    intro sol r hmem hd hA hR h0 hrun
    have hlen : y < sol.length := by rw [hd.1]; omega
    have hrowlen : x < (sol.getD y []).length := by rw [Dims.row_len hd hy]; omega
    simp only [try_nums] at hrun
    by_cases hc : check_position 3 sol x y m = true
    · rw [if_pos hc] at hrun
      have hm19 := hmem m (List.mem_cons_self _ _)
      have hdm : Dims 9 (sset sol y x m) := dims_sset hd _ _ _
      have hAm : AtMost (sset sol y x m) :=
        check_preserves sol hd x y m hx hy hm19.1 hm19.2 h0 hc hA
      have hRm : InRange9 (sset sol y x m) :=
        inrange_sset sol hd y x m hy hx hm19.2 hR
      rcases hrec2 : recur (sset sol y x m) with _ | ⟨s2, b⟩
      · rw [hrec2] at hrun
        exact absurd hrun (by simp)
      · rw [hrec2] at hrun
        cases b
        · have hrun2 : try_nums (check_position 3) recur x y (sset s2 y x 0) ms
              = some r := hrun
          have hres := hrec (sset sol y x m) (s2, false) hdm hAm hRm hrec2
          have hs2 : s2 = sset sol y x m := hres.1 rfl
          have hreset : sset s2 y x 0 = sol := by
            rw [hs2, sset_sset]
            have h00 : (0 : Nat) = (sol.getD y []).getD x 0 := by
              rw [show (sol.getD y []).getD x 0 = get2 sol y x from rfl, h0]
            rw [h00]
            exact sset_restore sol y x 0 hlen hrowlen
          rw [hreset] at hrun2
          exact ih sol r (fun q hq => hmem q (List.mem_cons_of_mem _ hq))
            hd hA hR h0 hrun2
        · have hre : (s2, true) = r := Option.some.inj hrun
          refine ⟨fun hf => ?_, fun _ => ?_⟩
          · rw [← hre] at hf
            exact absurd hf (by simp)
          · have hres := (hrec (sset sol y x m) (s2, true) hdm hAm hRm hrec2).2 rfl
            obtain ⟨hd2, hA2, hR2, hfill, hframe⟩ := hres
            rw [← hre]
            refine ⟨hd2, hA2, hR2, fun j hj i hi hge => ?_, fun j hj i hi hlt => ?_⟩
            · by_cases heq : 9 * j + i = 9 * y + x
              · have hj2 : j = y := by omega
                have hi2 : i = x := by omega
                rw [hj2, hi2, hframe y hy x (by omega) (by omega)]
                have hmm : get2 (sset sol y x m) y x = m :=
                  gget_sset_self _ _ _ _ _ hlen hrowlen
                rw [hmm]
                omega
              · exact hfill j hj i hi (by omega)
            · rw [hframe j hj i hi (by omega)]
              exact gget_sset_ne _ _ _ _ _ _ _ (by omega)
    · rw [if_neg hc] at hrun
      exact ih sol r (fun q hq => hmem q (List.mem_cons_of_mem _ hq))
        hd hA hR h0 hrun

theorem range1_9_bounds : ∀ m ∈ List.range' 1 9, 1 ≤ m ∧ m ≤ 9 := by decide

theorem fill_go (fuel : Nat) :
    ∀ (x y : Nat) (sol : List (List Nat)) (r : List (List Nat) × Bool),
      Dims 9 sol → x ≤ 9 → y < 9 → AtMost sol → InRange9 sol →
      fill_remaining 9 (check_position 3) fuel x y sol = some r →
      (r.2 = false → r.1 = sol) ∧
      (r.2 = true →
        Dims 9 r.1 ∧ AtMost r.1 ∧ InRange9 r.1 ∧
        (∀ j, j < 9 → ∀ i, i < 9 → 9 * y + x ≤ 9 * j + i → get2 r.1 j i ≠ 0) ∧
        (∀ j, j < 9 → ∀ i, i < 9 → 9 * j + i < 9 * y + x →
          get2 r.1 j i = get2 sol j i)) := by
  induction fuel with
  | zero =>
    intro x y sol r _ _ _ _ _ h
    exact absurd h (by simp [fill_remaining])
  | succ fuel ih =>
    intro x y sol r hd hx hy hA hR hrun
    by_cases hb : y = 8 ∧ x = 9
    · rw [fill_remaining_eq_base _ _ _ _ _ hb] at hrun
      have hre : (sol, true) = r := Option.some.inj hrun
      refine ⟨fun hf => ?_, fun _ => ?_⟩
      · rw [← hre] at hf
        exact absurd hf (by simp)
      · rw [← hre]
        refine ⟨hd, hA, hR, fun j hj i hi hge => ?_, fun j hj i hi hlt => rfl⟩
        exact absurd hge (by omega)
    · by_cases hxN : x = 9
      · subst hxN
        rw [fill_remaining_eq_wrap _ _ _ _ _ hb rfl] at hrun
        have hy8 : y ≠ 8 := fun hc => hb ⟨hc, rfl⟩
        have hy2 : y + 1 < 9 := by omega
        have hrec : ∀ (sol2 : List (List Nat)) (r2 : List (List Nat) × Bool),
            Dims 9 sol2 → AtMost sol2 → InRange9 sol2 →
            fill_remaining 9 (check_position 3) fuel 1 (y + 1) sol2 = some r2 →
            (r2.2 = false → r2.1 = sol2) ∧
            (r2.2 = true → Dims 9 r2.1 ∧ AtMost r2.1 ∧ InRange9 r2.1 ∧
              (∀ j, j < 9 → ∀ i, i < 9 → 9 * (y + 1) + 0 + 1 ≤ 9 * j + i →
                get2 r2.1 j i ≠ 0) ∧
              (∀ j, j < 9 → ∀ i, i < 9 → 9 * j + i < 9 * (y + 1) + 0 + 1 →
                get2 r2.1 j i = get2 sol2 j i)) := by
          intro sol2 r2 hd2 hA2 hR2 hrun2
          exact ih 1 (y + 1) sol2 r2 hd2 (by omega) hy2 hA2 hR2 hrun2
        have hgoal :
            (r.2 = false → r.1 = sol) ∧
            (r.2 = true → Dims 9 r.1 ∧ AtMost r.1 ∧ InRange9 r.1 ∧
              (∀ j, j < 9 → ∀ i, i < 9 → 9 * (y + 1) + 0 ≤ 9 * j + i →
                get2 r.1 j i ≠ 0) ∧
              (∀ j, j < 9 → ∀ i, i < 9 → 9 * j + i < 9 * (y + 1) + 0 →
                get2 r.1 j i = get2 sol j i)) := by
          by_cases hcell : (get2 sol (y + 1) 0 != 0) = true
          · rw [if_pos hcell] at hrun
            have hres := ih 1 (y + 1) sol r hd (by omega) hy2 hA hR hrun
            refine ⟨hres.1, fun ht => ?_⟩
            obtain ⟨hd2, hA2, hR2, hfill, hframe⟩ := hres.2 ht
            refine ⟨hd2, hA2, hR2, fun j hj i hi hge => ?_,
              fun j hj i hi hlt => hframe j hj i hi (by omega)⟩
            by_cases heq : 9 * j + i = 9 * (y + 1) + 0
            · have hj2 : j = y + 1 := by omega
              have hi2 : i = 0 := by omega
              rw [hj2, hi2, hframe (y + 1) hy2 0 (by omega) (by omega)]
              simpa using hcell
            · exact hfill j hj i hi (by omega)
          · rw [if_neg hcell] at hrun
            have hc0 : get2 sol (y + 1) 0 = 0 := by simpa using hcell
            exact try_go 0 (y + 1) (by omega) hy2 _ hrec (List.range' 1 9) sol r
              range1_9_bounds hd hA hR hc0 hrun
        refine ⟨hgoal.1, fun ht => ?_⟩
        obtain ⟨hd2, hA2, hR2, hfill, hframe⟩ := hgoal.2 ht
        refine ⟨hd2, hA2, hR2, fun j hj i hi hge => hfill j hj i hi (by omega),
          fun j hj i hi hlt => hframe j hj i hi (by omega)⟩
      · rw [fill_remaining_eq_step _ _ _ _ _ hxN] at hrun
        have hxlt : x < 9 := by omega
        have hrec : ∀ (sol2 : List (List Nat)) (r2 : List (List Nat) × Bool),
            Dims 9 sol2 → AtMost sol2 → InRange9 sol2 →
            fill_remaining 9 (check_position 3) fuel (x + 1) y sol2 = some r2 →
            (r2.2 = false → r2.1 = sol2) ∧
            (r2.2 = true → Dims 9 r2.1 ∧ AtMost r2.1 ∧ InRange9 r2.1 ∧
              (∀ j, j < 9 → ∀ i, i < 9 → 9 * y + x + 1 ≤ 9 * j + i →
                get2 r2.1 j i ≠ 0) ∧
              (∀ j, j < 9 → ∀ i, i < 9 → 9 * j + i < 9 * y + x + 1 →
                get2 r2.1 j i = get2 sol2 j i)) := by
          intro sol2 r2 hd2 hA2 hR2 hrun2
          exact ih (x + 1) y sol2 r2 hd2 (by omega) hy hA2 hR2 hrun2
        by_cases hcell : (get2 sol y x != 0) = true
        · rw [if_pos hcell] at hrun
          have hres := ih (x + 1) y sol r hd (by omega) hy hA hR hrun
          refine ⟨hres.1, fun ht => ?_⟩
          obtain ⟨hd2, hA2, hR2, hfill, hframe⟩ := hres.2 ht
          refine ⟨hd2, hA2, hR2, fun j hj i hi hge => ?_,
            fun j hj i hi hlt => hframe j hj i hi (by omega)⟩
          by_cases heq : 9 * j + i = 9 * y + x
          · have hj2 : j = y := by omega
            have hi2 : i = x := by omega
            rw [hj2, hi2, hframe y hy x (by omega) (by omega)]
            simpa using hcell
          · exact hfill j hj i hi (by omega)
        · rw [if_neg hcell] at hrun
          have hc0 : get2 sol y x = 0 := by simpa using hcell
          exact try_go x y hxlt hy _ hrec (List.range' 1 9) sol r
            range1_9_bounds hd hA hR hc0 hrun

/-! Characterization of `fill_block` and of the diagonal seeding (C2). -/

theorem zeros_dims : Dims 9 (zeros 9) := by
  constructor
  · simp [zeros]
  · intro r hr
    rw [List.eq_of_mem_replicate hr]
    simp

theorem fblock_inner (sol : List (List Nat)) (r c yy : Nat) (nums : List Nat)
    (hd : Dims 9 sol) (hry : r + yy < 9) (hc : c + 3 ≤ 9) (m : Nat) (hm : m ≤ 3) :
    Dims 9 ((List.range m).foldl
      (fun s2 xx => sset s2 (r + yy) (c + xx) (nums.getD (3 * yy + xx) 0)) sol) ∧
    (∀ j, j < 9 → ∀ i, i < 9 →
      get2 ((List.range m).foldl
        (fun s2 xx => sset s2 (r + yy) (c + xx) (nums.getD (3 * yy + xx) 0)) sol) j i =
        if j = r + yy ∧ c ≤ i ∧ i < c + m then nums.getD (3 * yy + (i - c)) 0
        else get2 sol j i) := by
  induction m with
  | zero =>
    refine ⟨hd, fun j hj i hi => ?_⟩
    rw [if_neg (by omega)]
    rfl
  | succ m ih =>
    obtain ⟨ihd, ihg⟩ := ih (by omega)
    rw [foldl_range_succ]
    set F := (List.range m).foldl
      (fun s2 xx => sset s2 (r + yy) (c + xx) (nums.getD (3 * yy + xx) 0)) sol with hF
    refine ⟨dims_sset ihd _ _ _, fun j hj i hi => ?_⟩
    by_cases hcell : j = r + yy ∧ i = c + m
    · have hb1 : r + yy < F.length := by rw [ihd.1]; omega
    
      have hb2 : c + m < (F.getD (r + yy) []).length := by
        rw [Dims.row_len ihd hry]; omega
      have hself : get2 (sset F (r + yy) (c + m) (nums.getD (3 * yy + m) 0))
          (r + yy) (c + m) = nums.getD (3 * yy + m) 0 :=
        gget_sset_self _ _ _ _ _ hb1 hb2
      rw [hcell.1, hcell.2, hself, if_pos ⟨rfl, by omega, by omega⟩,
        show c + m - c = m from by omega]
    · have hne : r + yy ≠ j ∨ c + m ≠ i := by omega
      have hstep : get2 (sset F (r + yy) (c + m) (nums.getD (3 * yy + m) 0)) j i
          = get2 F j i := gget_sset_ne _ _ _ _ _ _ _ hne
      rw [hstep, ihg j hj i hi]
      by_cases h1 : j = r + yy ∧ c ≤ i ∧ i < c + m
      · rw [if_pos h1, if_pos ⟨h1.1, by omega, by omega⟩]
      · rw [if_neg h1, if_neg (by omega)]

theorem fblock_outer (sol : List (List Nat)) (r c : Nat) (nums : List Nat)
    (hd : Dims 9 sol) (hr : r + 3 ≤ 9) (hc : c + 3 ≤ 9) (mo : Nat) (hmo : mo ≤ 3) :
    Dims 9 ((List.range mo).foldl
      (fun s yy => (List.range 3).foldl
        (fun s2 xx => sset s2 (r + yy) (c + xx) (nums.getD (3 * yy + xx) 0)) s) sol) ∧
    (∀ j, j < 9 → ∀ i, i < 9 →
      get2 ((List.range mo).foldl
        (fun s yy => (List.range 3).foldl
          (fun s2 xx => sset s2 (r + yy) (c + xx) (nums.getD (3 * yy + xx) 0)) s) sol) j i =
        if r ≤ j ∧ j < r + mo ∧ c ≤ i ∧ i < c + 3
        then nums.getD (3 * (j - r) + (i - c)) 0
        else get2 sol j i) := by
  induction mo with
  | zero =>
    refine ⟨hd, fun j hj i hi => ?_⟩
    rw [if_neg (by omega)]
    rfl
  | succ mo ih =>
    obtain ⟨ihd, ihg⟩ := ih (by omega)
    rw [foldl_range_succ]
    set F := (List.range mo).foldl
      (fun s yy => (List.range 3).foldl
        (fun s2 xx => sset s2 (r + yy) (c + xx) (nums.getD (3 * yy + xx) 0)) s) sol with hF
    obtain ⟨cd, cg⟩ := fblock_inner F r c mo nums ihd (by omega) hc 3 (le_refl _)
    refine ⟨cd, fun j hj i hi => ?_⟩
    rw [cg j hj i hi]
    by_cases he : j = r + mo ∧ c ≤ i ∧ i < c + 3
    · rw [if_pos he, if_pos (by omega), show j - r = mo from by omega]
    · rw [if_neg he, ihg j hj i hi]
      by_cases h1 : r ≤ j ∧ j < r + mo ∧ c ≤ i ∧ i < c + 3
      · rw [if_pos h1, if_pos (by omega)]
      · rw [if_neg h1, if_neg (by omega)]

theorem fill_block_get2 (sol : List (List Nat)) (r c : Nat) (nums : List Nat)
    (hd : Dims 9 sol) (hr : r + 3 ≤ 9) (hc : c + 3 ≤ 9) :
    Dims 9 (fill_block 3 sol r c nums) ∧
    (∀ j, j < 9 → ∀ i, i < 9 → get2 (fill_block 3 sol r c nums) j i =
      if r ≤ j ∧ j < r + 3 ∧ c ≤ i ∧ i < c + 3
      then nums.getD (3 * (j - r) + (i - c)) 0
      else get2 sol j i) :=
  fblock_outer sol r c nums hd hr hc 3 (le_refl _)

theorem seed_val_tl (b0 b1 b2 : List Nat) (j i : Nat) (hj : j < 3) (hi : i < 3) :
    get2 (fill_diagonal (zeros 9) b0 b1 b2) j i = b0.getD (3 * j + i) 0 := by
  obtain ⟨hd1, hg1⟩ := fill_block_get2 (zeros 9) 0 0 b0 zeros_dims (by omega) (by omega)
  obtain ⟨hd2, hg2⟩ := fill_block_get2 _ 3 3 b1 hd1 (by omega) (by omega)
  obtain ⟨hd3, hg3⟩ := fill_block_get2 _ 6 6 b2 hd2 (by omega) (by omega)
  show get2 (fill_block 3 (fill_block 3 (fill_block 3 (zeros 9) 0 0 b0) 3 3 b1) 6 6 b2)
    j i = _
  rw [hg3 j (by omega) i (by omega), if_neg (by omega),
    hg2 j (by omega) i (by omega), if_neg (by omega),
    hg1 j (by omega) i (by omega), if_pos (by omega : 0 ≤ j ∧ j < 0 + 3 ∧ 0 ≤ i ∧ i < 0 + 3),
    Nat.sub_zero, Nat.sub_zero]

theorem seed_val_mid (b0 b1 b2 : List Nat) (j i : Nat)
    (hj : 3 ≤ j ∧ j < 6) (hi : 3 ≤ i ∧ i < 6) :
    get2 (fill_diagonal (zeros 9) b0 b1 b2) j i = b1.getD (3 * (j - 3) + (i - 3)) 0 := by
  obtain ⟨hd1, hg1⟩ := fill_block_get2 (zeros 9) 0 0 b0 zeros_dims (by omega) (by omega)
  obtain ⟨hd2, hg2⟩ := fill_block_get2 _ 3 3 b1 hd1 (by omega) (by omega)
  obtain ⟨hd3, hg3⟩ := fill_block_get2 _ 6 6 b2 hd2 (by omega) (by omega)
  show get2 (fill_block 3 (fill_block 3 (fill_block 3 (zeros 9) 0 0 b0) 3 3 b1) 6 6 b2)
    j i = _
  rw [hg3 j (by omega) i (by omega), if_neg (by omega),
    hg2 j (by omega) i (by omega), if_pos (by omega : 3 ≤ j ∧ j < 3 + 3 ∧ 3 ≤ i ∧ i < 3 + 3)]

theorem seed_val_br (b0 b1 b2 : List Nat) (j i : Nat)
    (hj : 6 ≤ j ∧ j < 9) (hi : 6 ≤ i ∧ i < 9) :
    get2 (fill_diagonal (zeros 9) b0 b1 b2) j i = b2.getD (3 * (j - 6) + (i - 6)) 0 := by
  obtain ⟨hd1, hg1⟩ := fill_block_get2 (zeros 9) 0 0 b0 zeros_dims (by omega) (by omega)
  obtain ⟨hd2, hg2⟩ := fill_block_get2 _ 3 3 b1 hd1 (by omega) (by omega)
  obtain ⟨hd3, hg3⟩ := fill_block_get2 _ 6 6 b2 hd2 (by omega) (by omega)
  show get2 (fill_block 3 (fill_block 3 (fill_block 3 (zeros 9) 0 0 b0) 3 3 b1) 6 6 b2)
    j i = _
  rw [hg3 j (by omega) i (by omega),
    if_pos (by omega : 6 ≤ j ∧ j < 6 + 3 ∧ 6 ≤ i ∧ i < 6 + 3)]

theorem seed_val_zero (b0 b1 b2 : List Nat) (j i : Nat)
    (hj : j < 9) (hi : i < 9) (hoff : j / 3 ≠ i / 3) :
    get2 (fill_diagonal (zeros 9) b0 b1 b2) j i = 0 := by
  obtain ⟨hd1, hg1⟩ := fill_block_get2 (zeros 9) 0 0 b0 zeros_dims (by omega) (by omega)
  obtain ⟨hd2, hg2⟩ := fill_block_get2 _ 3 3 b1 hd1 (by omega) (by omega)
  obtain ⟨hd3, hg3⟩ := fill_block_get2 _ 6 6 b2 hd2 (by omega) (by omega)
  show get2 (fill_block 3 (fill_block 3 (fill_block 3 (zeros 9) 0 0 b0) 3 3 b1) 6 6 b2)
    j i = 0
  rw [hg3 j (by omega) i (by omega), if_neg (by omega),
    hg2 j (by omega) i (by omega), if_neg (by omega),
    hg1 j (by omega) i (by omega), if_neg (by omega), get2_zeros]

theorem fill_diagonal_dims (b0 b1 b2 : List Nat) :
    Dims 9 (fill_diagonal (zeros 9) b0 b1 b2) := by
  obtain ⟨hd1, _⟩ := fill_block_get2 (zeros 9) 0 0 b0 zeros_dims (by omega) (by omega)
  obtain ⟨hd2, _⟩ := fill_block_get2 _ 3 3 b1 hd1 (by omega) (by omega)
  obtain ⟨hd3, _⟩ := fill_block_get2 _ 6 6 b2 hd2 (by omega) (by omega)
  exact hd3

/-! Facts about the shuffled permutations. -/

theorem perm_length (b : List Nat) (h : b.Perm (List.range' 1 9)) : b.length = 9 := by
  rw [h.length_eq]
  rfl

theorem perm_nodup (b : List Nat) (h : b.Perm (List.range' 1 9)) : b.Nodup :=
  h.nodup_iff.mpr (by decide)

theorem perm_getD_bounds (b : List Nat) (h : b.Perm (List.range' 1 9))
    (k : Nat) (hk : k < 9) : 1 ≤ b.getD k 0 ∧ b.getD k 0 ≤ 9 := by
  have hlen := perm_length b h
  have hmem : b.getD k 0 ∈ b := by
    rw [List.getD_eq_getElem _ _ (by omega)]
    exact List.getElem_mem _
  have h2 := h.mem_iff.mp hmem
  have h3 : 1 ≤ b.getD k 0 ∧ b.getD k 0 < 1 + 9 := List.mem_range'_1.mp h2
  omega

theorem getD_nodup_ne (b : List Nat) (hnd : b.Nodup) (hlen : b.length = 9)
    (p q : Nat) (hp : p < 9) (hq : q < 9) (hne : p ≠ q) :
    b.getD p 0 ≠ b.getD q 0 := by
  rw [List.getD_eq_getElem _ _ (by omega), List.getD_eq_getElem _ _ (by omega)]
  intro hc
  exact hne (List.Nodup.getElem_inj_iff hnd |>.mp hc)

theorem count_three (a b c v : Nat) (hab : a ≠ b) (hac : a ≠ c) (hbc : b ≠ c) :
    ([a, b, c] : List Nat).count v ≤ 1 := by
  by_cases ha : a = v
  · have hbv : ¬ b = v := fun h => hab (by rw [ha, h])
    have hcv : ¬ c = v := fun h => hac (by rw [ha, h])
    simp [List.count_cons, ha, hbv, hcv]
  · by_cases hb : b = v
    · have hcv : ¬ c = v := fun h => hbc (by rw [hb, h])
      simp [List.count_cons, ha, hb, hcv]
    · by_cases hc : c = v <;> simp [List.count_cons, ha, hb, hc]

theorem count_zero3 (v : Nat) (hv : 1 ≤ v) : ([0, 0, 0] : List Nat).count v = 0 := by
  rw [List.count_eq_zero]
  intro hc
  simp at hc
  omega

theorem count_zero6 (v : Nat) (hv : 1 ≤ v) :
    ([0, 0, 0, 0, 0, 0] : List Nat).count v = 0 := by
  rw [List.count_eq_zero]
  intro hc
  simp at hc
  omega

theorem count_zero9 (v : Nat) (hv : 1 ≤ v) :
    ([0, 0, 0, 0, 0, 0, 0, 0, 0] : List Nat).count v = 0 := by
  rw [List.count_eq_zero]
  intro hc
  simp at hc
  omega

/-! Pigeonhole: nine cells, values in 1..9, each at most once, hence each
exactly once. -/

theorem count_eq_one_of_9 (l : List Nat) (hlen : l.length = 9)
    (hmem : ∀ w ∈ l, 1 ≤ w ∧ w ≤ 9)
    (hc : ∀ u, u < 10 → 1 ≤ u → l.count u ≤ 1) :
    ∀ v, v < 10 → 1 ≤ v → l.count v = 1 := by
  intro v hv10 hv1
  by_contra hne
  have hv0 : l.count v = 0 := by
    have := hc v hv10 hv1
    omega
  have hnotmem : v ∉ l := List.count_eq_zero.mp hv0
  have hsub : l.toFinset ⊆ (Finset.Icc 1 9).erase v := by
    intro a ha
    rw [List.mem_toFinset] at ha
    rw [Finset.mem_erase, Finset.mem_Icc]
    exact ⟨fun hc2 => hnotmem (hc2 ▸ ha), (hmem a ha).1, (hmem a ha).2⟩
  have hlen2 : (∑ a ∈ l.toFinset, l.count a) = 9 := by
    have := Multiset.toFinset_sum_count_eq (l : Multiset Nat)
    simpa [hlen] using this
  have hbound : (∑ a ∈ l.toFinset, l.count a)
      ≤ ∑ a ∈ (Finset.Icc 1 9).erase v, l.count a :=
    Finset.sum_le_sum_of_subset hsub
  have hbound2 : (∑ a ∈ (Finset.Icc 1 9).erase v, l.count a)
      ≤ ((Finset.Icc 1 9).erase v).card * 1 := by
    have := Finset.sum_le_card_nsmul ((Finset.Icc 1 9).erase v) (fun a => l.count a) 1
      (by
        intro a ha
        rw [Finset.mem_erase, Finset.mem_Icc] at ha
        exact hc a (by omega) ha.2.1)
    simpa using this
  have hcard : ((Finset.Icc 1 9).erase v).card ≤ 8 := by
    have h9 : (Finset.Icc 1 9).card = 9 := by
      rw [Nat.card_Icc]
    have hvmem : v ∈ Finset.Icc 1 9 := by
      rw [Finset.mem_Icc]
      omega
    rw [Finset.card_erase_of_mem hvmem, h9]
  omega

/-! The diagonal seeding satisfies the fill invariants (C2). -/

theorem fill_diagonal_atmost (b0 b1 b2 : List Nat)
    (h0 : b0.Perm (List.range' 1 9)) (h1 : b1.Perm (List.range' 1 9))
    (h2 : b2.Perm (List.range' 1 9)) :
    AtMost (fill_diagonal (zeros 9) b0 b1 b2) := by
  have hl0 := perm_length b0 h0
  have hl1 := perm_length b1 h1
  have hl2 := perm_length b2 h2
  have hn0 := perm_nodup b0 h0
  have hn1 := perm_nodup b1 h1
  have hn2 := perm_nodup b2 h2
  intro v hv10 hv1
  refine ⟨fun y hy => ?_, fun x hx => ?_, fun bi hbi bj hbj => ?_⟩
  · interval_cases y
    · have e : unitVals (fill_diagonal (zeros 9) b0 b1 b2) (rowCoords 0)
          = [b0.getD 0 0, b0.getD 1 0, b0.getD 2 0, 0, 0, 0, 0, 0, 0] := by
        rw [show unitVals (fill_diagonal (zeros 9) b0 b1 b2) (rowCoords 0)
            = [get2 (fill_diagonal (zeros 9) b0 b1 b2) 0 0,
              get2 (fill_diagonal (zeros 9) b0 b1 b2) 0 1,
              get2 (fill_diagonal (zeros 9) b0 b1 b2) 0 2,
              get2 (fill_diagonal (zeros 9) b0 b1 b2) 0 3,
              get2 (fill_diagonal (zeros 9) b0 b1 b2) 0 4,
              get2 (fill_diagonal (zeros 9) b0 b1 b2) 0 5,
              get2 (fill_diagonal (zeros 9) b0 b1 b2) 0 6,
              get2 (fill_diagonal (zeros 9) b0 b1 b2) 0 7,
              get2 (fill_diagonal (zeros 9) b0 b1 b2) 0 8] from rfl]
        rw [seed_val_tl b0 b1 b2 0 0 (by omega) (by omega),
            seed_val_tl b0 b1 b2 0 1 (by omega) (by omega),
            seed_val_tl b0 b1 b2 0 2 (by omega) (by omega),
            seed_val_zero b0 b1 b2 0 3 (by omega) (by omega) (by omega),
            seed_val_zero b0 b1 b2 0 4 (by omega) (by omega) (by omega),
            seed_val_zero b0 b1 b2 0 5 (by omega) (by omega) (by omega),
            seed_val_zero b0 b1 b2 0 6 (by omega) (by omega) (by omega),
            seed_val_zero b0 b1 b2 0 7 (by omega) (by omega) (by omega),
            seed_val_zero b0 b1 b2 0 8 (by omega) (by omega) (by omega)]
      rw [e]
      rw [show ([b0.getD 0 0, b0.getD 1 0, b0.getD 2 0, 0, 0, 0, 0, 0, 0] : List Nat)
          = [b0.getD 0 0, b0.getD 1 0, b0.getD 2 0] ++ [0, 0, 0, 0, 0, 0] from rfl, List.count_append]
      rw [count_zero6 v hv1]
      have c3 := count_three (b0.getD 0 0) (b0.getD 1 0) (b0.getD 2 0) v
        (getD_nodup_ne b0 hn0 hl0 0 1 (by omega) (by omega) (by omega))
        (getD_nodup_ne b0 hn0 hl0 0 2 (by omega) (by omega) (by omega))
        (getD_nodup_ne b0 hn0 hl0 1 2 (by omega) (by omega) (by omega))
      omega
    · have e : unitVals (fill_diagonal (zeros 9) b0 b1 b2) (rowCoords 1)
          = [b0.getD 3 0, b0.getD 4 0, b0.getD 5 0, 0, 0, 0, 0, 0, 0] := by
        rw [show unitVals (fill_diagonal (zeros 9) b0 b1 b2) (rowCoords 1)
            = [get2 (fill_diagonal (zeros 9) b0 b1 b2) 1 0,
              get2 (fill_diagonal (zeros 9) b0 b1 b2) 1 1,
              get2 (fill_diagonal (zeros 9) b0 b1 b2) 1 2,
              get2 (fill_diagonal (zeros 9) b0 b1 b2) 1 3,
              get2 (fill_diagonal (zeros 9) b0 b1 b2) 1 4,
              get2 (fill_diagonal (zeros 9) b0 b1 b2) 1 5,
              get2 (fill_diagonal (zeros 9) b0 b1 b2) 1 6,
              get2 (fill_diagonal (zeros 9) b0 b1 b2) 1 7,
              get2 (fill_diagonal (zeros 9) b0 b1 b2) 1 8] from rfl]
        rw [seed_val_tl b0 b1 b2 1 0 (by omega) (by omega),
            seed_val_tl b0 b1 b2 1 1 (by omega) (by omega),
            seed_val_tl b0 b1 b2 1 2 (by omega) (by omega),
            seed_val_zero b0 b1 b2 1 3 (by omega) (by omega) (by omega),
            seed_val_zero b0 b1 b2 1 4 (by omega) (by omega) (by omega),
            seed_val_zero b0 b1 b2 1 5 (by omega) (by omega) (by omega),
            seed_val_zero b0 b1 b2 1 6 (by omega) (by omega) (by omega),
            seed_val_zero b0 b1 b2 1 7 (by omega) (by omega) (by omega),
            seed_val_zero b0 b1 b2 1 8 (by omega) (by omega) (by omega)]
      rw [e]
      rw [show ([b0.getD 3 0, b0.getD 4 0, b0.getD 5 0, 0, 0, 0, 0, 0, 0] : List Nat)
          = [b0.getD 3 0, b0.getD 4 0, b0.getD 5 0] ++ [0, 0, 0, 0, 0, 0] from rfl, List.count_append]
      rw [count_zero6 v hv1]
      have c3 := count_three (b0.getD 3 0) (b0.getD 4 0) (b0.getD 5 0) v
        (getD_nodup_ne b0 hn0 hl0 3 4 (by omega) (by omega) (by omega))
        (getD_nodup_ne b0 hn0 hl0 3 5 (by omega) (by omega) (by omega))
        (getD_nodup_ne b0 hn0 hl0 4 5 (by omega) (by omega) (by omega))
      omega
    · have e : unitVals (fill_diagonal (zeros 9) b0 b1 b2) (rowCoords 2)
          = [b0.getD 6 0, b0.getD 7 0, b0.getD 8 0, 0, 0, 0, 0, 0, 0] := by
        rw [show unitVals (fill_diagonal (zeros 9) b0 b1 b2) (rowCoords 2)
            = [get2 (fill_diagonal (zeros 9) b0 b1 b2) 2 0,
              get2 (fill_diagonal (zeros 9) b0 b1 b2) 2 1,
              get2 (fill_diagonal (zeros 9) b0 b1 b2) 2 2,
              get2 (fill_diagonal (zeros 9) b0 b1 b2) 2 3,
              get2 (fill_diagonal (zeros 9) b0 b1 b2) 2 4,
              get2 (fill_diagonal (zeros 9) b0 b1 b2) 2 5,
              get2 (fill_diagonal (zeros 9) b0 b1 b2) 2 6,
              get2 (fill_diagonal (zeros 9) b0 b1 b2) 2 7,
              get2 (fill_diagonal (zeros 9) b0 b1 b2) 2 8] from rfl]
        rw [seed_val_tl b0 b1 b2 2 0 (by omega) (by omega),
            seed_val_tl b0 b1 b2 2 1 (by omega) (by omega),
            seed_val_tl b0 b1 b2 2 2 (by omega) (by omega),
            seed_val_zero b0 b1 b2 2 3 (by omega) (by omega) (by omega),
            seed_val_zero b0 b1 b2 2 4 (by omega) (by omega) (by omega),
            seed_val_zero b0 b1 b2 2 5 (by omega) (by omega) (by omega),
            seed_val_zero b0 b1 b2 2 6 (by omega) (by omega) (by omega),
            seed_val_zero b0 b1 b2 2 7 (by omega) (by omega) (by omega),
            seed_val_zero b0 b1 b2 2 8 (by omega) (by omega) (by omega)]
      rw [e]
      rw [show ([b0.getD 6 0, b0.getD 7 0, b0.getD 8 0, 0, 0, 0, 0, 0, 0] : List Nat)
          = [b0.getD 6 0, b0.getD 7 0, b0.getD 8 0] ++ [0, 0, 0, 0, 0, 0] from rfl, List.count_append]
      rw [count_zero6 v hv1]
      have c3 := count_three (b0.getD 6 0) (b0.getD 7 0) (b0.getD 8 0) v
        (getD_nodup_ne b0 hn0 hl0 6 7 (by omega) (by omega) (by omega))
        (getD_nodup_ne b0 hn0 hl0 6 8 (by omega) (by omega) (by omega))
        (getD_nodup_ne b0 hn0 hl0 7 8 (by omega) (by omega) (by omega))
      omega
    · have e : unitVals (fill_diagonal (zeros 9) b0 b1 b2) (rowCoords 3)
          = [0, 0, 0, b1.getD 0 0, b1.getD 1 0, b1.getD 2 0, 0, 0, 0] := by
        rw [show unitVals (fill_diagonal (zeros 9) b0 b1 b2) (rowCoords 3)
            = [get2 (fill_diagonal (zeros 9) b0 b1 b2) 3 0,
              get2 (fill_diagonal (zeros 9) b0 b1 b2) 3 1,
              get2 (fill_diagonal (zeros 9) b0 b1 b2) 3 2,
              get2 (fill_diagonal (zeros 9) b0 b1 b2) 3 3,
              get2 (fill_diagonal (zeros 9) b0 b1 b2) 3 4,
              get2 (fill_diagonal (zeros 9) b0 b1 b2) 3 5,
              get2 (fill_diagonal (zeros 9) b0 b1 b2) 3 6,
              get2 (fill_diagonal (zeros 9) b0 b1 b2) 3 7,
              get2 (fill_diagonal (zeros 9) b0 b1 b2) 3 8] from rfl]
        rw [seed_val_zero b0 b1 b2 3 0 (by omega) (by omega) (by omega),
            seed_val_zero b0 b1 b2 3 1 (by omega) (by omega) (by omega),
            seed_val_zero b0 b1 b2 3 2 (by omega) (by omega) (by omega),
            seed_val_mid b0 b1 b2 3 3 (by omega) (by omega),
            seed_val_mid b0 b1 b2 3 4 (by omega) (by omega),
            seed_val_mid b0 b1 b2 3 5 (by omega) (by omega),
            seed_val_zero b0 b1 b2 3 6 (by omega) (by omega) (by omega),
            seed_val_zero b0 b1 b2 3 7 (by omega) (by omega) (by omega),
            seed_val_zero b0 b1 b2 3 8 (by omega) (by omega) (by omega)]
      rw [e]
      rw [show ([0, 0, 0, b1.getD 0 0, b1.getD 1 0, b1.getD 2 0, 0, 0, 0] : List Nat)
          = [0, 0, 0] ++ ([b1.getD 0 0, b1.getD 1 0, b1.getD 2 0] ++ [0, 0, 0]) from rfl, List.count_append, List.count_append]
      rw [count_zero3 v hv1]
      have c3 := count_three (b1.getD 0 0) (b1.getD 1 0) (b1.getD 2 0) v
        (getD_nodup_ne b1 hn1 hl1 0 1 (by omega) (by omega) (by omega))
        (getD_nodup_ne b1 hn1 hl1 0 2 (by omega) (by omega) (by omega))
        (getD_nodup_ne b1 hn1 hl1 1 2 (by omega) (by omega) (by omega))
      omega
    · have e : unitVals (fill_diagonal (zeros 9) b0 b1 b2) (rowCoords 4)
          = [0, 0, 0, b1.getD 3 0, b1.getD 4 0, b1.getD 5 0, 0, 0, 0] := by
        rw [show unitVals (fill_diagonal (zeros 9) b0 b1 b2) (rowCoords 4)
            = [get2 (fill_diagonal (zeros 9) b0 b1 b2) 4 0,
              get2 (fill_diagonal (zeros 9) b0 b1 b2) 4 1,
              get2 (fill_diagonal (zeros 9) b0 b1 b2) 4 2,
              get2 (fill_diagonal (zeros 9) b0 b1 b2) 4 3,
              get2 (fill_diagonal (zeros 9) b0 b1 b2) 4 4,
              get2 (fill_diagonal (zeros 9) b0 b1 b2) 4 5,
              get2 (fill_diagonal (zeros 9) b0 b1 b2) 4 6,
              get2 (fill_diagonal (zeros 9) b0 b1 b2) 4 7,
              get2 (fill_diagonal (zeros 9) b0 b1 b2) 4 8] from rfl]
        rw [seed_val_zero b0 b1 b2 4 0 (by omega) (by omega) (by omega),
            seed_val_zero b0 b1 b2 4 1 (by omega) (by omega) (by omega),
            seed_val_zero b0 b1 b2 4 2 (by omega) (by omega) (by omega),
            seed_val_mid b0 b1 b2 4 3 (by omega) (by omega),
            seed_val_mid b0 b1 b2 4 4 (by omega) (by omega),
            seed_val_mid b0 b1 b2 4 5 (by omega) (by omega),
            seed_val_zero b0 b1 b2 4 6 (by omega) (by omega) (by omega),
            seed_val_zero b0 b1 b2 4 7 (by omega) (by omega) (by omega),
            seed_val_zero b0 b1 b2 4 8 (by omega) (by omega) (by omega)]
      rw [e]
      rw [show ([0, 0, 0, b1.getD 3 0, b1.getD 4 0, b1.getD 5 0, 0, 0, 0] : List Nat)
          = [0, 0, 0] ++ ([b1.getD 3 0, b1.getD 4 0, b1.getD 5 0] ++ [0, 0, 0]) from rfl, List.count_append, List.count_append]
      rw [count_zero3 v hv1]
      have c3 := count_three (b1.getD 3 0) (b1.getD 4 0) (b1.getD 5 0) v
        (getD_nodup_ne b1 hn1 hl1 3 4 (by omega) (by omega) (by omega))
        (getD_nodup_ne b1 hn1 hl1 3 5 (by omega) (by omega) (by omega))
        (getD_nodup_ne b1 hn1 hl1 4 5 (by omega) (by omega) (by omega))
      omega
    · have e : unitVals (fill_diagonal (zeros 9) b0 b1 b2) (rowCoords 5)
          = [0, 0, 0, b1.getD 6 0, b1.getD 7 0, b1.getD 8 0, 0, 0, 0] := by
        rw [show unitVals (fill_diagonal (zeros 9) b0 b1 b2) (rowCoords 5)
            = [get2 (fill_diagonal (zeros 9) b0 b1 b2) 5 0,
              get2 (fill_diagonal (zeros 9) b0 b1 b2) 5 1,
              get2 (fill_diagonal (zeros 9) b0 b1 b2) 5 2,
              get2 (fill_diagonal (zeros 9) b0 b1 b2) 5 3,
              get2 (fill_diagonal (zeros 9) b0 b1 b2) 5 4,
              get2 (fill_diagonal (zeros 9) b0 b1 b2) 5 5,
              get2 (fill_diagonal (zeros 9) b0 b1 b2) 5 6,
              get2 (fill_diagonal (zeros 9) b0 b1 b2) 5 7,
              get2 (fill_diagonal (zeros 9) b0 b1 b2) 5 8] from rfl]
        rw [seed_val_zero b0 b1 b2 5 0 (by omega) (by omega) (by omega),
            seed_val_zero b0 b1 b2 5 1 (by omega) (by omega) (by omega),
            seed_val_zero b0 b1 b2 5 2 (by omega) (by omega) (by omega),
            seed_val_mid b0 b1 b2 5 3 (by omega) (by omega),
            seed_val_mid b0 b1 b2 5 4 (by omega) (by omega),
            seed_val_mid b0 b1 b2 5 5 (by omega) (by omega),
            seed_val_zero b0 b1 b2 5 6 (by omega) (by omega) (by omega),
            seed_val_zero b0 b1 b2 5 7 (by omega) (by omega) (by omega),
            seed_val_zero b0 b1 b2 5 8 (by omega) (by omega) (by omega)]
      rw [e]
      rw [show ([0, 0, 0, b1.getD 6 0, b1.getD 7 0, b1.getD 8 0, 0, 0, 0] : List Nat)
          = [0, 0, 0] ++ ([b1.getD 6 0, b1.getD 7 0, b1.getD 8 0] ++ [0, 0, 0]) from rfl, List.count_append, List.count_append]
      rw [count_zero3 v hv1]
      have c3 := count_three (b1.getD 6 0) (b1.getD 7 0) (b1.getD 8 0) v
        (getD_nodup_ne b1 hn1 hl1 6 7 (by omega) (by omega) (by omega))
        (getD_nodup_ne b1 hn1 hl1 6 8 (by omega) (by omega) (by omega))
        (getD_nodup_ne b1 hn1 hl1 7 8 (by omega) (by omega) (by omega))
      omega
    · have e : unitVals (fill_diagonal (zeros 9) b0 b1 b2) (rowCoords 6)
          = [0, 0, 0, 0, 0, 0, b2.getD 0 0, b2.getD 1 0, b2.getD 2 0] := by
        rw [show unitVals (fill_diagonal (zeros 9) b0 b1 b2) (rowCoords 6)
            = [get2 (fill_diagonal (zeros 9) b0 b1 b2) 6 0,
              get2 (fill_diagonal (zeros 9) b0 b1 b2) 6 1,
              get2 (fill_diagonal (zeros 9) b0 b1 b2) 6 2,
              get2 (fill_diagonal (zeros 9) b0 b1 b2) 6 3,
              get2 (fill_diagonal (zeros 9) b0 b1 b2) 6 4,
              get2 (fill_diagonal (zeros 9) b0 b1 b2) 6 5,
              get2 (fill_diagonal (zeros 9) b0 b1 b2) 6 6,
              get2 (fill_diagonal (zeros 9) b0 b1 b2) 6 7,
              get2 (fill_diagonal (zeros 9) b0 b1 b2) 6 8] from rfl]
        rw [seed_val_zero b0 b1 b2 6 0 (by omega) (by omega) (by omega),
            seed_val_zero b0 b1 b2 6 1 (by omega) (by omega) (by omega),
            seed_val_zero b0 b1 b2 6 2 (by omega) (by omega) (by omega),
            seed_val_zero b0 b1 b2 6 3 (by omega) (by omega) (by omega),
            seed_val_zero b0 b1 b2 6 4 (by omega) (by omega) (by omega),
            seed_val_zero b0 b1 b2 6 5 (by omega) (by omega) (by omega),
            seed_val_br b0 b1 b2 6 6 (by omega) (by omega),
            seed_val_br b0 b1 b2 6 7 (by omega) (by omega),
            seed_val_br b0 b1 b2 6 8 (by omega) (by omega)]
      rw [e]
      rw [show ([0, 0, 0, 0, 0, 0, b2.getD 0 0, b2.getD 1 0, b2.getD 2 0] : List Nat)
          = [0, 0, 0, 0, 0, 0] ++ [b2.getD 0 0, b2.getD 1 0, b2.getD 2 0] from rfl, List.count_append]
      rw [count_zero6 v hv1]
      have c3 := count_three (b2.getD 0 0) (b2.getD 1 0) (b2.getD 2 0) v
        (getD_nodup_ne b2 hn2 hl2 0 1 (by omega) (by omega) (by omega))
        (getD_nodup_ne b2 hn2 hl2 0 2 (by omega) (by omega) (by omega))
        (getD_nodup_ne b2 hn2 hl2 1 2 (by omega) (by omega) (by omega))
      omega
    · have e : unitVals (fill_diagonal (zeros 9) b0 b1 b2) (rowCoords 7)
          = [0, 0, 0, 0, 0, 0, b2.getD 3 0, b2.getD 4 0, b2.getD 5 0] := by
        rw [show unitVals (fill_diagonal (zeros 9) b0 b1 b2) (rowCoords 7)
            = [get2 (fill_diagonal (zeros 9) b0 b1 b2) 7 0,
              get2 (fill_diagonal (zeros 9) b0 b1 b2) 7 1,
              get2 (fill_diagonal (zeros 9) b0 b1 b2) 7 2,
              get2 (fill_diagonal (zeros 9) b0 b1 b2) 7 3,
              get2 (fill_diagonal (zeros 9) b0 b1 b2) 7 4,
              get2 (fill_diagonal (zeros 9) b0 b1 b2) 7 5,
              get2 (fill_diagonal (zeros 9) b0 b1 b2) 7 6,
              get2 (fill_diagonal (zeros 9) b0 b1 b2) 7 7,
              get2 (fill_diagonal (zeros 9) b0 b1 b2) 7 8] from rfl]
        rw [seed_val_zero b0 b1 b2 7 0 (by omega) (by omega) (by omega),
            seed_val_zero b0 b1 b2 7 1 (by omega) (by omega) (by omega),
            seed_val_zero b0 b1 b2 7 2 (by omega) (by omega) (by omega),
            seed_val_zero b0 b1 b2 7 3 (by omega) (by omega) (by omega),
            seed_val_zero b0 b1 b2 7 4 (by omega) (by omega) (by omega),
            seed_val_zero b0 b1 b2 7 5 (by omega) (by omega) (by omega),
            seed_val_br b0 b1 b2 7 6 (by omega) (by omega),
            seed_val_br b0 b1 b2 7 7 (by omega) (by omega),
            seed_val_br b0 b1 b2 7 8 (by omega) (by omega)]
      rw [e]
      rw [show ([0, 0, 0, 0, 0, 0, b2.getD 3 0, b2.getD 4 0, b2.getD 5 0] : List Nat)
          = [0, 0, 0, 0, 0, 0] ++ [b2.getD 3 0, b2.getD 4 0, b2.getD 5 0] from rfl, List.count_append]
      rw [count_zero6 v hv1]
      have c3 := count_three (b2.getD 3 0) (b2.getD 4 0) (b2.getD 5 0) v
        (getD_nodup_ne b2 hn2 hl2 3 4 (by omega) (by omega) (by omega))
        (getD_nodup_ne b2 hn2 hl2 3 5 (by omega) (by omega) (by omega))
        (getD_nodup_ne b2 hn2 hl2 4 5 (by omega) (by omega) (by omega))
      omega
    · have e : unitVals (fill_diagonal (zeros 9) b0 b1 b2) (rowCoords 8)
          = [0, 0, 0, 0, 0, 0, b2.getD 6 0, b2.getD 7 0, b2.getD 8 0] := by
        rw [show unitVals (fill_diagonal (zeros 9) b0 b1 b2) (rowCoords 8)
            = [get2 (fill_diagonal (zeros 9) b0 b1 b2) 8 0,
              get2 (fill_diagonal (zeros 9) b0 b1 b2) 8 1,
              get2 (fill_diagonal (zeros 9) b0 b1 b2) 8 2,
              get2 (fill_diagonal (zeros 9) b0 b1 b2) 8 3,
              get2 (fill_diagonal (zeros 9) b0 b1 b2) 8 4,
              get2 (fill_diagonal (zeros 9) b0 b1 b2) 8 5,
              get2 (fill_diagonal (zeros 9) b0 b1 b2) 8 6,
              get2 (fill_diagonal (zeros 9) b0 b1 b2) 8 7,
              get2 (fill_diagonal (zeros 9) b0 b1 b2) 8 8] from rfl]
        rw [seed_val_zero b0 b1 b2 8 0 (by omega) (by omega) (by omega),
            seed_val_zero b0 b1 b2 8 1 (by omega) (by omega) (by omega),
            seed_val_zero b0 b1 b2 8 2 (by omega) (by omega) (by omega),
            seed_val_zero b0 b1 b2 8 3 (by omega) (by omega) (by omega),
            seed_val_zero b0 b1 b2 8 4 (by omega) (by omega) (by omega),
            seed_val_zero b0 b1 b2 8 5 (by omega) (by omega) (by omega),
            seed_val_br b0 b1 b2 8 6 (by omega) (by omega),
            seed_val_br b0 b1 b2 8 7 (by omega) (by omega),
            seed_val_br b0 b1 b2 8 8 (by omega) (by omega)]
      rw [e]
      rw [show ([0, 0, 0, 0, 0, 0, b2.getD 6 0, b2.getD 7 0, b2.getD 8 0] : List Nat)
          = [0, 0, 0, 0, 0, 0] ++ [b2.getD 6 0, b2.getD 7 0, b2.getD 8 0] from rfl, List.count_append]
      rw [count_zero6 v hv1]
      have c3 := count_three (b2.getD 6 0) (b2.getD 7 0) (b2.getD 8 0) v
        (getD_nodup_ne b2 hn2 hl2 6 7 (by omega) (by omega) (by omega))
        (getD_nodup_ne b2 hn2 hl2 6 8 (by omega) (by omega) (by omega))
        (getD_nodup_ne b2 hn2 hl2 7 8 (by omega) (by omega) (by omega))
      omega
  · interval_cases x
    · have e : unitVals (fill_diagonal (zeros 9) b0 b1 b2) (colCoords 0)
          = [b0.getD 0 0, b0.getD 3 0, b0.getD 6 0, 0, 0, 0, 0, 0, 0] := by
        rw [show unitVals (fill_diagonal (zeros 9) b0 b1 b2) (colCoords 0)
            = [get2 (fill_diagonal (zeros 9) b0 b1 b2) 0 0,
              get2 (fill_diagonal (zeros 9) b0 b1 b2) 1 0,
              get2 (fill_diagonal (zeros 9) b0 b1 b2) 2 0,
              get2 (fill_diagonal (zeros 9) b0 b1 b2) 3 0,
              get2 (fill_diagonal (zeros 9) b0 b1 b2) 4 0,
              get2 (fill_diagonal (zeros 9) b0 b1 b2) 5 0,
              get2 (fill_diagonal (zeros 9) b0 b1 b2) 6 0,
              get2 (fill_diagonal (zeros 9) b0 b1 b2) 7 0,
              get2 (fill_diagonal (zeros 9) b0 b1 b2) 8 0] from rfl]
        rw [seed_val_tl b0 b1 b2 0 0 (by omega) (by omega),
            seed_val_tl b0 b1 b2 1 0 (by omega) (by omega),
            seed_val_tl b0 b1 b2 2 0 (by omega) (by omega),
            seed_val_zero b0 b1 b2 3 0 (by omega) (by omega) (by omega),
            seed_val_zero b0 b1 b2 4 0 (by omega) (by omega) (by omega),
            seed_val_zero b0 b1 b2 5 0 (by omega) (by omega) (by omega),
            seed_val_zero b0 b1 b2 6 0 (by omega) (by omega) (by omega),
            seed_val_zero b0 b1 b2 7 0 (by omega) (by omega) (by omega),
            seed_val_zero b0 b1 b2 8 0 (by omega) (by omega) (by omega)]
      rw [e]
      rw [show ([b0.getD 0 0, b0.getD 3 0, b0.getD 6 0, 0, 0, 0, 0, 0, 0] : List Nat)
          = [b0.getD 0 0, b0.getD 3 0, b0.getD 6 0] ++ [0, 0, 0, 0, 0, 0] from rfl, List.count_append]
      rw [count_zero6 v hv1]
      have c3 := count_three (b0.getD 0 0) (b0.getD 3 0) (b0.getD 6 0) v
        (getD_nodup_ne b0 hn0 hl0 0 3 (by omega) (by omega) (by omega))
        (getD_nodup_ne b0 hn0 hl0 0 6 (by omega) (by omega) (by omega))
        (getD_nodup_ne b0 hn0 hl0 3 6 (by omega) (by omega) (by omega))
      omega
    · have e : unitVals (fill_diagonal (zeros 9) b0 b1 b2) (colCoords 1)
          = [b0.getD 1 0, b0.getD 4 0, b0.getD 7 0, 0, 0, 0, 0, 0, 0] := by
        rw [show unitVals (fill_diagonal (zeros 9) b0 b1 b2) (colCoords 1)
            = [get2 (fill_diagonal (zeros 9) b0 b1 b2) 0 1,
              get2 (fill_diagonal (zeros 9) b0 b1 b2) 1 1,
              get2 (fill_diagonal (zeros 9) b0 b1 b2) 2 1,
              get2 (fill_diagonal (zeros 9) b0 b1 b2) 3 1,
              get2 (fill_diagonal (zeros 9) b0 b1 b2) 4 1,
              get2 (fill_diagonal (zeros 9) b0 b1 b2) 5 1,
              get2 (fill_diagonal (zeros 9) b0 b1 b2) 6 1,
              get2 (fill_diagonal (zeros 9) b0 b1 b2) 7 1,
              get2 (fill_diagonal (zeros 9) b0 b1 b2) 8 1] from rfl]
        rw [seed_val_tl b0 b1 b2 0 1 (by omega) (by omega),
            seed_val_tl b0 b1 b2 1 1 (by omega) (by omega),
            seed_val_tl b0 b1 b2 2 1 (by omega) (by omega),
            seed_val_zero b0 b1 b2 3 1 (by omega) (by omega) (by omega),
            seed_val_zero b0 b1 b2 4 1 (by omega) (by omega) (by omega),
            seed_val_zero b0 b1 b2 5 1 (by omega) (by omega) (by omega),
            seed_val_zero b0 b1 b2 6 1 (by omega) (by omega) (by omega),
            seed_val_zero b0 b1 b2 7 1 (by omega) (by omega) (by omega),
            seed_val_zero b0 b1 b2 8 1 (by omega) (by omega) (by omega)]
      rw [e]
      rw [show ([b0.getD 1 0, b0.getD 4 0, b0.getD 7 0, 0, 0, 0, 0, 0, 0] : List Nat)
          = [b0.getD 1 0, b0.getD 4 0, b0.getD 7 0] ++ [0, 0, 0, 0, 0, 0] from rfl, List.count_append]
      rw [count_zero6 v hv1]
      have c3 := count_three (b0.getD 1 0) (b0.getD 4 0) (b0.getD 7 0) v
        (getD_nodup_ne b0 hn0 hl0 1 4 (by omega) (by omega) (by omega))
        (getD_nodup_ne b0 hn0 hl0 1 7 (by omega) (by omega) (by omega))
        (getD_nodup_ne b0 hn0 hl0 4 7 (by omega) (by omega) (by omega))
      omega
    · have e : unitVals (fill_diagonal (zeros 9) b0 b1 b2) (colCoords 2)
          = [b0.getD 2 0, b0.getD 5 0, b0.getD 8 0, 0, 0, 0, 0, 0, 0] := by
        rw [show unitVals (fill_diagonal (zeros 9) b0 b1 b2) (colCoords 2)
            = [get2 (fill_diagonal (zeros 9) b0 b1 b2) 0 2,
              get2 (fill_diagonal (zeros 9) b0 b1 b2) 1 2,
              get2 (fill_diagonal (zeros 9) b0 b1 b2) 2 2,
              get2 (fill_diagonal (zeros 9) b0 b1 b2) 3 2,
              get2 (fill_diagonal (zeros 9) b0 b1 b2) 4 2,
              get2 (fill_diagonal (zeros 9) b0 b1 b2) 5 2,
              get2 (fill_diagonal (zeros 9) b0 b1 b2) 6 2,
              get2 (fill_diagonal (zeros 9) b0 b1 b2) 7 2,
              get2 (fill_diagonal (zeros 9) b0 b1 b2) 8 2] from rfl]
        rw [seed_val_tl b0 b1 b2 0 2 (by omega) (by omega),
            seed_val_tl b0 b1 b2 1 2 (by omega) (by omega),
            seed_val_tl b0 b1 b2 2 2 (by omega) (by omega),
            seed_val_zero b0 b1 b2 3 2 (by omega) (by omega) (by omega),
            seed_val_zero b0 b1 b2 4 2 (by omega) (by omega) (by omega),
            seed_val_zero b0 b1 b2 5 2 (by omega) (by omega) (by omega),
            seed_val_zero b0 b1 b2 6 2 (by omega) (by omega) (by omega),
            seed_val_zero b0 b1 b2 7 2 (by omega) (by omega) (by omega),
            seed_val_zero b0 b1 b2 8 2 (by omega) (by omega) (by omega)]
      rw [e]
      rw [show ([b0.getD 2 0, b0.getD 5 0, b0.getD 8 0, 0, 0, 0, 0, 0, 0] : List Nat)
          = [b0.getD 2 0, b0.getD 5 0, b0.getD 8 0] ++ [0, 0, 0, 0, 0, 0] from rfl, List.count_append]
      rw [count_zero6 v hv1]
      have c3 := count_three (b0.getD 2 0) (b0.getD 5 0) (b0.getD 8 0) v
        (getD_nodup_ne b0 hn0 hl0 2 5 (by omega) (by omega) (by omega))
        (getD_nodup_ne b0 hn0 hl0 2 8 (by omega) (by omega) (by omega))
        (getD_nodup_ne b0 hn0 hl0 5 8 (by omega) (by omega) (by omega))
      omega
    · have e : unitVals (fill_diagonal (zeros 9) b0 b1 b2) (colCoords 3)
          = [0, 0, 0, b1.getD 0 0, b1.getD 3 0, b1.getD 6 0, 0, 0, 0] := by
        rw [show unitVals (fill_diagonal (zeros 9) b0 b1 b2) (colCoords 3)
            = [get2 (fill_diagonal (zeros 9) b0 b1 b2) 0 3,
              get2 (fill_diagonal (zeros 9) b0 b1 b2) 1 3,
              get2 (fill_diagonal (zeros 9) b0 b1 b2) 2 3,
              get2 (fill_diagonal (zeros 9) b0 b1 b2) 3 3,
              get2 (fill_diagonal (zeros 9) b0 b1 b2) 4 3,
              get2 (fill_diagonal (zeros 9) b0 b1 b2) 5 3,
              get2 (fill_diagonal (zeros 9) b0 b1 b2) 6 3,
              get2 (fill_diagonal (zeros 9) b0 b1 b2) 7 3,
              get2 (fill_diagonal (zeros 9) b0 b1 b2) 8 3] from rfl]
        rw [seed_val_zero b0 b1 b2 0 3 (by omega) (by omega) (by omega),
            seed_val_zero b0 b1 b2 1 3 (by omega) (by omega) (by omega),
            seed_val_zero b0 b1 b2 2 3 (by omega) (by omega) (by omega),
            seed_val_mid b0 b1 b2 3 3 (by omega) (by omega),
            seed_val_mid b0 b1 b2 4 3 (by omega) (by omega),
            seed_val_mid b0 b1 b2 5 3 (by omega) (by omega),
            seed_val_zero b0 b1 b2 6 3 (by omega) (by omega) (by omega),
            seed_val_zero b0 b1 b2 7 3 (by omega) (by omega) (by omega),
            seed_val_zero b0 b1 b2 8 3 (by omega) (by omega) (by omega)]
      rw [e]
      rw [show ([0, 0, 0, b1.getD 0 0, b1.getD 3 0, b1.getD 6 0, 0, 0, 0] : List Nat)
          = [0, 0, 0] ++ ([b1.getD 0 0, b1.getD 3 0, b1.getD 6 0] ++ [0, 0, 0]) from rfl, List.count_append, List.count_append]
      rw [count_zero3 v hv1]
      have c3 := count_three (b1.getD 0 0) (b1.getD 3 0) (b1.getD 6 0) v
        (getD_nodup_ne b1 hn1 hl1 0 3 (by omega) (by omega) (by omega))
        (getD_nodup_ne b1 hn1 hl1 0 6 (by omega) (by omega) (by omega))
        (getD_nodup_ne b1 hn1 hl1 3 6 (by omega) (by omega) (by omega))
      omega
    · have e : unitVals (fill_diagonal (zeros 9) b0 b1 b2) (colCoords 4)
          = [0, 0, 0, b1.getD 1 0, b1.getD 4 0, b1.getD 7 0, 0, 0, 0] := by
        rw [show unitVals (fill_diagonal (zeros 9) b0 b1 b2) (colCoords 4)
            = [get2 (fill_diagonal (zeros 9) b0 b1 b2) 0 4,
              get2 (fill_diagonal (zeros 9) b0 b1 b2) 1 4,
              get2 (fill_diagonal (zeros 9) b0 b1 b2) 2 4,
              get2 (fill_diagonal (zeros 9) b0 b1 b2) 3 4,
              get2 (fill_diagonal (zeros 9) b0 b1 b2) 4 4,
              get2 (fill_diagonal (zeros 9) b0 b1 b2) 5 4,
              get2 (fill_diagonal (zeros 9) b0 b1 b2) 6 4,
              get2 (fill_diagonal (zeros 9) b0 b1 b2) 7 4,
              get2 (fill_diagonal (zeros 9) b0 b1 b2) 8 4] from rfl]
        rw [seed_val_zero b0 b1 b2 0 4 (by omega) (by omega) (by omega),
            seed_val_zero b0 b1 b2 1 4 (by omega) (by omega) (by omega),
            seed_val_zero b0 b1 b2 2 4 (by omega) (by omega) (by omega),
            seed_val_mid b0 b1 b2 3 4 (by omega) (by omega),
            seed_val_mid b0 b1 b2 4 4 (by omega) (by omega),
            seed_val_mid b0 b1 b2 5 4 (by omega) (by omega),
            seed_val_zero b0 b1 b2 6 4 (by omega) (by omega) (by omega),
            seed_val_zero b0 b1 b2 7 4 (by omega) (by omega) (by omega),
            seed_val_zero b0 b1 b2 8 4 (by omega) (by omega) (by omega)]
      rw [e]
      rw [show ([0, 0, 0, b1.getD 1 0, b1.getD 4 0, b1.getD 7 0, 0, 0, 0] : List Nat)
          = [0, 0, 0] ++ ([b1.getD 1 0, b1.getD 4 0, b1.getD 7 0] ++ [0, 0, 0]) from rfl, List.count_append, List.count_append]
      rw [count_zero3 v hv1]
      have c3 := count_three (b1.getD 1 0) (b1.getD 4 0) (b1.getD 7 0) v
        (getD_nodup_ne b1 hn1 hl1 1 4 (by omega) (by omega) (by omega))
        (getD_nodup_ne b1 hn1 hl1 1 7 (by omega) (by omega) (by omega))
        (getD_nodup_ne b1 hn1 hl1 4 7 (by omega) (by omega) (by omega))
      omega
    · have e : unitVals (fill_diagonal (zeros 9) b0 b1 b2) (colCoords 5)
          = [0, 0, 0, b1.getD 2 0, b1.getD 5 0, b1.getD 8 0, 0, 0, 0] := by
        rw [show unitVals (fill_diagonal (zeros 9) b0 b1 b2) (colCoords 5)
            = [get2 (fill_diagonal (zeros 9) b0 b1 b2) 0 5,
              get2 (fill_diagonal (zeros 9) b0 b1 b2) 1 5,
              get2 (fill_diagonal (zeros 9) b0 b1 b2) 2 5,
              get2 (fill_diagonal (zeros 9) b0 b1 b2) 3 5,
              get2 (fill_diagonal (zeros 9) b0 b1 b2) 4 5,
              get2 (fill_diagonal (zeros 9) b0 b1 b2) 5 5,
              get2 (fill_diagonal (zeros 9) b0 b1 b2) 6 5,
              get2 (fill_diagonal (zeros 9) b0 b1 b2) 7 5,
              get2 (fill_diagonal (zeros 9) b0 b1 b2) 8 5] from rfl]
        rw [seed_val_zero b0 b1 b2 0 5 (by omega) (by omega) (by omega),
            seed_val_zero b0 b1 b2 1 5 (by omega) (by omega) (by omega),
            seed_val_zero b0 b1 b2 2 5 (by omega) (by omega) (by omega),
            seed_val_mid b0 b1 b2 3 5 (by omega) (by omega),
            seed_val_mid b0 b1 b2 4 5 (by omega) (by omega),
            seed_val_mid b0 b1 b2 5 5 (by omega) (by omega),
            seed_val_zero b0 b1 b2 6 5 (by omega) (by omega) (by omega),
            seed_val_zero b0 b1 b2 7 5 (by omega) (by omega) (by omega),
            seed_val_zero b0 b1 b2 8 5 (by omega) (by omega) (by omega)]
      rw [e]
      rw [show ([0, 0, 0, b1.getD 2 0, b1.getD 5 0, b1.getD 8 0, 0, 0, 0] : List Nat)
          = [0, 0, 0] ++ ([b1.getD 2 0, b1.getD 5 0, b1.getD 8 0] ++ [0, 0, 0]) from rfl, List.count_append, List.count_append]
      rw [count_zero3 v hv1]
      have c3 := count_three (b1.getD 2 0) (b1.getD 5 0) (b1.getD 8 0) v
        (getD_nodup_ne b1 hn1 hl1 2 5 (by omega) (by omega) (by omega))
        (getD_nodup_ne b1 hn1 hl1 2 8 (by omega) (by omega) (by omega))
        (getD_nodup_ne b1 hn1 hl1 5 8 (by omega) (by omega) (by omega))
      omega
    · have e : unitVals (fill_diagonal (zeros 9) b0 b1 b2) (colCoords 6)
          = [0, 0, 0, 0, 0, 0, b2.getD 0 0, b2.getD 3 0, b2.getD 6 0] := by
        rw [show unitVals (fill_diagonal (zeros 9) b0 b1 b2) (colCoords 6)
            = [get2 (fill_diagonal (zeros 9) b0 b1 b2) 0 6,
              get2 (fill_diagonal (zeros 9) b0 b1 b2) 1 6,
              get2 (fill_diagonal (zeros 9) b0 b1 b2) 2 6,
              get2 (fill_diagonal (zeros 9) b0 b1 b2) 3 6,
              get2 (fill_diagonal (zeros 9) b0 b1 b2) 4 6,
              get2 (fill_diagonal (zeros 9) b0 b1 b2) 5 6,
              get2 (fill_diagonal (zeros 9) b0 b1 b2) 6 6,
              get2 (fill_diagonal (zeros 9) b0 b1 b2) 7 6,
              get2 (fill_diagonal (zeros 9) b0 b1 b2) 8 6] from rfl]
        rw [seed_val_zero b0 b1 b2 0 6 (by omega) (by omega) (by omega),
            seed_val_zero b0 b1 b2 1 6 (by omega) (by omega) (by omega),
            seed_val_zero b0 b1 b2 2 6 (by omega) (by omega) (by omega),
            seed_val_zero b0 b1 b2 3 6 (by omega) (by omega) (by omega),
            seed_val_zero b0 b1 b2 4 6 (by omega) (by omega) (by omega),
            seed_val_zero b0 b1 b2 5 6 (by omega) (by omega) (by omega),
            seed_val_br b0 b1 b2 6 6 (by omega) (by omega),
            seed_val_br b0 b1 b2 7 6 (by omega) (by omega),
            seed_val_br b0 b1 b2 8 6 (by omega) (by omega)]
      rw [e]
      rw [show ([0, 0, 0, 0, 0, 0, b2.getD 0 0, b2.getD 3 0, b2.getD 6 0] : List Nat)
          = [0, 0, 0, 0, 0, 0] ++ [b2.getD 0 0, b2.getD 3 0, b2.getD 6 0] from rfl, List.count_append]
      rw [count_zero6 v hv1]
      have c3 := count_three (b2.getD 0 0) (b2.getD 3 0) (b2.getD 6 0) v
        (getD_nodup_ne b2 hn2 hl2 0 3 (by omega) (by omega) (by omega))
        (getD_nodup_ne b2 hn2 hl2 0 6 (by omega) (by omega) (by omega))
        (getD_nodup_ne b2 hn2 hl2 3 6 (by omega) (by omega) (by omega))
      omega
    · have e : unitVals (fill_diagonal (zeros 9) b0 b1 b2) (colCoords 7)
          = [0, 0, 0, 0, 0, 0, b2.getD 1 0, b2.getD 4 0, b2.getD 7 0] := by
        rw [show unitVals (fill_diagonal (zeros 9) b0 b1 b2) (colCoords 7)
            = [get2 (fill_diagonal (zeros 9) b0 b1 b2) 0 7,
              get2 (fill_diagonal (zeros 9) b0 b1 b2) 1 7,
              get2 (fill_diagonal (zeros 9) b0 b1 b2) 2 7,
              get2 (fill_diagonal (zeros 9) b0 b1 b2) 3 7,
              get2 (fill_diagonal (zeros 9) b0 b1 b2) 4 7,
              get2 (fill_diagonal (zeros 9) b0 b1 b2) 5 7,
              get2 (fill_diagonal (zeros 9) b0 b1 b2) 6 7,
              get2 (fill_diagonal (zeros 9) b0 b1 b2) 7 7,
              get2 (fill_diagonal (zeros 9) b0 b1 b2) 8 7] from rfl]
        rw [seed_val_zero b0 b1 b2 0 7 (by omega) (by omega) (by omega),
            seed_val_zero b0 b1 b2 1 7 (by omega) (by omega) (by omega),
            seed_val_zero b0 b1 b2 2 7 (by omega) (by omega) (by omega),
            seed_val_zero b0 b1 b2 3 7 (by omega) (by omega) (by omega),
            seed_val_zero b0 b1 b2 4 7 (by omega) (by omega) (by omega),
            seed_val_zero b0 b1 b2 5 7 (by omega) (by omega) (by omega),
            seed_val_br b0 b1 b2 6 7 (by omega) (by omega),
            seed_val_br b0 b1 b2 7 7 (by omega) (by omega),
            seed_val_br b0 b1 b2 8 7 (by omega) (by omega)]
      rw [e]
      rw [show ([0, 0, 0, 0, 0, 0, b2.getD 1 0, b2.getD 4 0, b2.getD 7 0] : List Nat)
          = [0, 0, 0, 0, 0, 0] ++ [b2.getD 1 0, b2.getD 4 0, b2.getD 7 0] from rfl, List.count_append]
      rw [count_zero6 v hv1]
      have c3 := count_three (b2.getD 1 0) (b2.getD 4 0) (b2.getD 7 0) v
        (getD_nodup_ne b2 hn2 hl2 1 4 (by omega) (by omega) (by omega))
        (getD_nodup_ne b2 hn2 hl2 1 7 (by omega) (by omega) (by omega))
        (getD_nodup_ne b2 hn2 hl2 4 7 (by omega) (by omega) (by omega))
      omega
    · have e : unitVals (fill_diagonal (zeros 9) b0 b1 b2) (colCoords 8)
          = [0, 0, 0, 0, 0, 0, b2.getD 2 0, b2.getD 5 0, b2.getD 8 0] := by
        rw [show unitVals (fill_diagonal (zeros 9) b0 b1 b2) (colCoords 8)
            = [get2 (fill_diagonal (zeros 9) b0 b1 b2) 0 8,
              get2 (fill_diagonal (zeros 9) b0 b1 b2) 1 8,
              get2 (fill_diagonal (zeros 9) b0 b1 b2) 2 8,
              get2 (fill_diagonal (zeros 9) b0 b1 b2) 3 8,
              get2 (fill_diagonal (zeros 9) b0 b1 b2) 4 8,
              get2 (fill_diagonal (zeros 9) b0 b1 b2) 5 8,
              get2 (fill_diagonal (zeros 9) b0 b1 b2) 6 8,
              get2 (fill_diagonal (zeros 9) b0 b1 b2) 7 8,
              get2 (fill_diagonal (zeros 9) b0 b1 b2) 8 8] from rfl]
        rw [seed_val_zero b0 b1 b2 0 8 (by omega) (by omega) (by omega),
            seed_val_zero b0 b1 b2 1 8 (by omega) (by omega) (by omega),
            seed_val_zero b0 b1 b2 2 8 (by omega) (by omega) (by omega),
            seed_val_zero b0 b1 b2 3 8 (by omega) (by omega) (by omega),
            seed_val_zero b0 b1 b2 4 8 (by omega) (by omega) (by omega),
            seed_val_zero b0 b1 b2 5 8 (by omega) (by omega) (by omega),
            seed_val_br b0 b1 b2 6 8 (by omega) (by omega),
            seed_val_br b0 b1 b2 7 8 (by omega) (by omega),
            seed_val_br b0 b1 b2 8 8 (by omega) (by omega)]
      rw [e]
      rw [show ([0, 0, 0, 0, 0, 0, b2.getD 2 0, b2.getD 5 0, b2.getD 8 0] : List Nat)
          = [0, 0, 0, 0, 0, 0] ++ [b2.getD 2 0, b2.getD 5 0, b2.getD 8 0] from rfl, List.count_append]
      rw [count_zero6 v hv1]
      have c3 := count_three (b2.getD 2 0) (b2.getD 5 0) (b2.getD 8 0) v
        (getD_nodup_ne b2 hn2 hl2 2 5 (by omega) (by omega) (by omega))
        (getD_nodup_ne b2 hn2 hl2 2 8 (by omega) (by omega) (by omega))
        (getD_nodup_ne b2 hn2 hl2 5 8 (by omega) (by omega) (by omega))
      omega
  · interval_cases bi <;> interval_cases bj
    · have e : unitVals (fill_diagonal (zeros 9) b0 b1 b2) (blockCoords 0 0)
          = [b0.getD 0 0, b0.getD 1 0, b0.getD 2 0, b0.getD 3 0, b0.getD 4 0, b0.getD 5 0, b0.getD 6 0, b0.getD 7 0, b0.getD 8 0] := by
        rw [show unitVals (fill_diagonal (zeros 9) b0 b1 b2) (blockCoords 0 0)
            = [get2 (fill_diagonal (zeros 9) b0 b1 b2) 0 0,
              get2 (fill_diagonal (zeros 9) b0 b1 b2) 0 1,
              get2 (fill_diagonal (zeros 9) b0 b1 b2) 0 2,
              get2 (fill_diagonal (zeros 9) b0 b1 b2) 1 0,
              get2 (fill_diagonal (zeros 9) b0 b1 b2) 1 1,
              get2 (fill_diagonal (zeros 9) b0 b1 b2) 1 2,
              get2 (fill_diagonal (zeros 9) b0 b1 b2) 2 0,
              get2 (fill_diagonal (zeros 9) b0 b1 b2) 2 1,
              get2 (fill_diagonal (zeros 9) b0 b1 b2) 2 2] from rfl]
        rw [seed_val_tl b0 b1 b2 0 0 (by omega) (by omega),
            seed_val_tl b0 b1 b2 0 1 (by omega) (by omega),
            seed_val_tl b0 b1 b2 0 2 (by omega) (by omega),
            seed_val_tl b0 b1 b2 1 0 (by omega) (by omega),
            seed_val_tl b0 b1 b2 1 1 (by omega) (by omega),
            seed_val_tl b0 b1 b2 1 2 (by omega) (by omega),
            seed_val_tl b0 b1 b2 2 0 (by omega) (by omega),
            seed_val_tl b0 b1 b2 2 1 (by omega) (by omega),
            seed_val_tl b0 b1 b2 2 2 (by omega) (by omega)]
      rw [e]
      have e2 : ([b0.getD 0 0, b0.getD 1 0, b0.getD 2 0, b0.getD 3 0, b0.getD 4 0, b0.getD 5 0, b0.getD 6 0, b0.getD 7 0, b0.getD 8 0] : List Nat) = b0 := by
        have hm := map_getD_range b0 0
        rw [hl0] at hm
        exact hm
      rw [e2]
      exact List.nodup_iff_count_le_one.mp hn0 v
    · have e : unitVals (fill_diagonal (zeros 9) b0 b1 b2) (blockCoords 0 1)
          = [0, 0, 0, 0, 0, 0, 0, 0, 0] := by
        rw [show unitVals (fill_diagonal (zeros 9) b0 b1 b2) (blockCoords 0 1)
            = [get2 (fill_diagonal (zeros 9) b0 b1 b2) 0 3,
              get2 (fill_diagonal (zeros 9) b0 b1 b2) 0 4,
              get2 (fill_diagonal (zeros 9) b0 b1 b2) 0 5,
              get2 (fill_diagonal (zeros 9) b0 b1 b2) 1 3,
              get2 (fill_diagonal (zeros 9) b0 b1 b2) 1 4,
              get2 (fill_diagonal (zeros 9) b0 b1 b2) 1 5,
              get2 (fill_diagonal (zeros 9) b0 b1 b2) 2 3,
              get2 (fill_diagonal (zeros 9) b0 b1 b2) 2 4,
              get2 (fill_diagonal (zeros 9) b0 b1 b2) 2 5] from rfl]
        rw [seed_val_zero b0 b1 b2 0 3 (by omega) (by omega) (by omega),
            seed_val_zero b0 b1 b2 0 4 (by omega) (by omega) (by omega),
            seed_val_zero b0 b1 b2 0 5 (by omega) (by omega) (by omega),
            seed_val_zero b0 b1 b2 1 3 (by omega) (by omega) (by omega),
            seed_val_zero b0 b1 b2 1 4 (by omega) (by omega) (by omega),
            seed_val_zero b0 b1 b2 1 5 (by omega) (by omega) (by omega),
            seed_val_zero b0 b1 b2 2 3 (by omega) (by omega) (by omega),
            seed_val_zero b0 b1 b2 2 4 (by omega) (by omega) (by omega),
            seed_val_zero b0 b1 b2 2 5 (by omega) (by omega) (by omega)]
      rw [e]
      rw [count_zero9 v hv1]
      omega
    · have e : unitVals (fill_diagonal (zeros 9) b0 b1 b2) (blockCoords 0 2)
          = [0, 0, 0, 0, 0, 0, 0, 0, 0] := by
        rw [show unitVals (fill_diagonal (zeros 9) b0 b1 b2) (blockCoords 0 2)
            = [get2 (fill_diagonal (zeros 9) b0 b1 b2) 0 6,
              get2 (fill_diagonal (zeros 9) b0 b1 b2) 0 7,
              get2 (fill_diagonal (zeros 9) b0 b1 b2) 0 8,
              get2 (fill_diagonal (zeros 9) b0 b1 b2) 1 6,
              get2 (fill_diagonal (zeros 9) b0 b1 b2) 1 7,
              get2 (fill_diagonal (zeros 9) b0 b1 b2) 1 8,
              get2 (fill_diagonal (zeros 9) b0 b1 b2) 2 6,
              get2 (fill_diagonal (zeros 9) b0 b1 b2) 2 7,
              get2 (fill_diagonal (zeros 9) b0 b1 b2) 2 8] from rfl]
        rw [seed_val_zero b0 b1 b2 0 6 (by omega) (by omega) (by omega),
            seed_val_zero b0 b1 b2 0 7 (by omega) (by omega) (by omega),
            seed_val_zero b0 b1 b2 0 8 (by omega) (by omega) (by omega),
            seed_val_zero b0 b1 b2 1 6 (by omega) (by omega) (by omega),
            seed_val_zero b0 b1 b2 1 7 (by omega) (by omega) (by omega),
            seed_val_zero b0 b1 b2 1 8 (by omega) (by omega) (by omega),
            seed_val_zero b0 b1 b2 2 6 (by omega) (by omega) (by omega),
            seed_val_zero b0 b1 b2 2 7 (by omega) (by omega) (by omega),
            seed_val_zero b0 b1 b2 2 8 (by omega) (by omega) (by omega)]
      rw [e]
      rw [count_zero9 v hv1]
      omega
    · have e : unitVals (fill_diagonal (zeros 9) b0 b1 b2) (blockCoords 1 0)
          = [0, 0, 0, 0, 0, 0, 0, 0, 0] := by
        rw [show unitVals (fill_diagonal (zeros 9) b0 b1 b2) (blockCoords 1 0)
            = [get2 (fill_diagonal (zeros 9) b0 b1 b2) 3 0,
              get2 (fill_diagonal (zeros 9) b0 b1 b2) 3 1,
              get2 (fill_diagonal (zeros 9) b0 b1 b2) 3 2,
              get2 (fill_diagonal (zeros 9) b0 b1 b2) 4 0,
              get2 (fill_diagonal (zeros 9) b0 b1 b2) 4 1,
              get2 (fill_diagonal (zeros 9) b0 b1 b2) 4 2,
              get2 (fill_diagonal (zeros 9) b0 b1 b2) 5 0,
              get2 (fill_diagonal (zeros 9) b0 b1 b2) 5 1,
              get2 (fill_diagonal (zeros 9) b0 b1 b2) 5 2] from rfl]
        rw [seed_val_zero b0 b1 b2 3 0 (by omega) (by omega) (by omega),
            seed_val_zero b0 b1 b2 3 1 (by omega) (by omega) (by omega),
            seed_val_zero b0 b1 b2 3 2 (by omega) (by omega) (by omega),
            seed_val_zero b0 b1 b2 4 0 (by omega) (by omega) (by omega),
            seed_val_zero b0 b1 b2 4 1 (by omega) (by omega) (by omega),
            seed_val_zero b0 b1 b2 4 2 (by omega) (by omega) (by omega),
            seed_val_zero b0 b1 b2 5 0 (by omega) (by omega) (by omega),
            seed_val_zero b0 b1 b2 5 1 (by omega) (by omega) (by omega),
            seed_val_zero b0 b1 b2 5 2 (by omega) (by omega) (by omega)]
      rw [e]
      rw [count_zero9 v hv1]
      omega
    · have e : unitVals (fill_diagonal (zeros 9) b0 b1 b2) (blockCoords 1 1)
          = [b1.getD 0 0, b1.getD 1 0, b1.getD 2 0, b1.getD 3 0, b1.getD 4 0, b1.getD 5 0, b1.getD 6 0, b1.getD 7 0, b1.getD 8 0] := by
        rw [show unitVals (fill_diagonal (zeros 9) b0 b1 b2) (blockCoords 1 1)
            = [get2 (fill_diagonal (zeros 9) b0 b1 b2) 3 3,
              get2 (fill_diagonal (zeros 9) b0 b1 b2) 3 4,
              get2 (fill_diagonal (zeros 9) b0 b1 b2) 3 5,
              get2 (fill_diagonal (zeros 9) b0 b1 b2) 4 3,
              get2 (fill_diagonal (zeros 9) b0 b1 b2) 4 4,
              get2 (fill_diagonal (zeros 9) b0 b1 b2) 4 5,
              get2 (fill_diagonal (zeros 9) b0 b1 b2) 5 3,
              get2 (fill_diagonal (zeros 9) b0 b1 b2) 5 4,
              get2 (fill_diagonal (zeros 9) b0 b1 b2) 5 5] from rfl]
        rw [seed_val_mid b0 b1 b2 3 3 (by omega) (by omega),
            seed_val_mid b0 b1 b2 3 4 (by omega) (by omega),
            seed_val_mid b0 b1 b2 3 5 (by omega) (by omega),
            seed_val_mid b0 b1 b2 4 3 (by omega) (by omega),
            seed_val_mid b0 b1 b2 4 4 (by omega) (by omega),
            seed_val_mid b0 b1 b2 4 5 (by omega) (by omega),
            seed_val_mid b0 b1 b2 5 3 (by omega) (by omega),
            seed_val_mid b0 b1 b2 5 4 (by omega) (by omega),
            seed_val_mid b0 b1 b2 5 5 (by omega) (by omega)]
      rw [e]
      have e2 : ([b1.getD 0 0, b1.getD 1 0, b1.getD 2 0, b1.getD 3 0, b1.getD 4 0, b1.getD 5 0, b1.getD 6 0, b1.getD 7 0, b1.getD 8 0] : List Nat) = b1 := by
        have hm := map_getD_range b1 0
        rw [hl1] at hm
        exact hm
      rw [e2]
      exact List.nodup_iff_count_le_one.mp hn1 v
    · have e : unitVals (fill_diagonal (zeros 9) b0 b1 b2) (blockCoords 1 2)
          = [0, 0, 0, 0, 0, 0, 0, 0, 0] := by
        rw [show unitVals (fill_diagonal (zeros 9) b0 b1 b2) (blockCoords 1 2)
            = [get2 (fill_diagonal (zeros 9) b0 b1 b2) 3 6,
              get2 (fill_diagonal (zeros 9) b0 b1 b2) 3 7,
              get2 (fill_diagonal (zeros 9) b0 b1 b2) 3 8,
              get2 (fill_diagonal (zeros 9) b0 b1 b2) 4 6,
              get2 (fill_diagonal (zeros 9) b0 b1 b2) 4 7,
              get2 (fill_diagonal (zeros 9) b0 b1 b2) 4 8,
              get2 (fill_diagonal (zeros 9) b0 b1 b2) 5 6,
              get2 (fill_diagonal (zeros 9) b0 b1 b2) 5 7,
              get2 (fill_diagonal (zeros 9) b0 b1 b2) 5 8] from rfl]
        rw [seed_val_zero b0 b1 b2 3 6 (by omega) (by omega) (by omega),
            seed_val_zero b0 b1 b2 3 7 (by omega) (by omega) (by omega),
            seed_val_zero b0 b1 b2 3 8 (by omega) (by omega) (by omega),
            seed_val_zero b0 b1 b2 4 6 (by omega) (by omega) (by omega),
            seed_val_zero b0 b1 b2 4 7 (by omega) (by omega) (by omega),
            seed_val_zero b0 b1 b2 4 8 (by omega) (by omega) (by omega),
            seed_val_zero b0 b1 b2 5 6 (by omega) (by omega) (by omega),
            seed_val_zero b0 b1 b2 5 7 (by omega) (by omega) (by omega),
            seed_val_zero b0 b1 b2 5 8 (by omega) (by omega) (by omega)]
      rw [e]
      rw [count_zero9 v hv1]
      omega
    · have e : unitVals (fill_diagonal (zeros 9) b0 b1 b2) (blockCoords 2 0)
          = [0, 0, 0, 0, 0, 0, 0, 0, 0] := by
        rw [show unitVals (fill_diagonal (zeros 9) b0 b1 b2) (blockCoords 2 0)
            = [get2 (fill_diagonal (zeros 9) b0 b1 b2) 6 0,
              get2 (fill_diagonal (zeros 9) b0 b1 b2) 6 1,
              get2 (fill_diagonal (zeros 9) b0 b1 b2) 6 2,
              get2 (fill_diagonal (zeros 9) b0 b1 b2) 7 0,
              get2 (fill_diagonal (zeros 9) b0 b1 b2) 7 1,
              get2 (fill_diagonal (zeros 9) b0 b1 b2) 7 2,
              get2 (fill_diagonal (zeros 9) b0 b1 b2) 8 0,
              get2 (fill_diagonal (zeros 9) b0 b1 b2) 8 1,
              get2 (fill_diagonal (zeros 9) b0 b1 b2) 8 2] from rfl]
        rw [seed_val_zero b0 b1 b2 6 0 (by omega) (by omega) (by omega),
            seed_val_zero b0 b1 b2 6 1 (by omega) (by omega) (by omega),
            seed_val_zero b0 b1 b2 6 2 (by omega) (by omega) (by omega),
            seed_val_zero b0 b1 b2 7 0 (by omega) (by omega) (by omega),
            seed_val_zero b0 b1 b2 7 1 (by omega) (by omega) (by omega),
            seed_val_zero b0 b1 b2 7 2 (by omega) (by omega) (by omega),
            seed_val_zero b0 b1 b2 8 0 (by omega) (by omega) (by omega),
            seed_val_zero b0 b1 b2 8 1 (by omega) (by omega) (by omega),
            seed_val_zero b0 b1 b2 8 2 (by omega) (by omega) (by omega)]
      rw [e]
      rw [count_zero9 v hv1]
      omega
    · have e : unitVals (fill_diagonal (zeros 9) b0 b1 b2) (blockCoords 2 1)
          = [0, 0, 0, 0, 0, 0, 0, 0, 0] := by
        rw [show unitVals (fill_diagonal (zeros 9) b0 b1 b2) (blockCoords 2 1)
            = [get2 (fill_diagonal (zeros 9) b0 b1 b2) 6 3,
              get2 (fill_diagonal (zeros 9) b0 b1 b2) 6 4,
              get2 (fill_diagonal (zeros 9) b0 b1 b2) 6 5,
              get2 (fill_diagonal (zeros 9) b0 b1 b2) 7 3,
              get2 (fill_diagonal (zeros 9) b0 b1 b2) 7 4,
              get2 (fill_diagonal (zeros 9) b0 b1 b2) 7 5,
              get2 (fill_diagonal (zeros 9) b0 b1 b2) 8 3,
              get2 (fill_diagonal (zeros 9) b0 b1 b2) 8 4,
              get2 (fill_diagonal (zeros 9) b0 b1 b2) 8 5] from rfl]
        rw [seed_val_zero b0 b1 b2 6 3 (by omega) (by omega) (by omega),
            seed_val_zero b0 b1 b2 6 4 (by omega) (by omega) (by omega),
            seed_val_zero b0 b1 b2 6 5 (by omega) (by omega) (by omega),
            seed_val_zero b0 b1 b2 7 3 (by omega) (by omega) (by omega),
            seed_val_zero b0 b1 b2 7 4 (by omega) (by omega) (by omega),
            seed_val_zero b0 b1 b2 7 5 (by omega) (by omega) (by omega),
            seed_val_zero b0 b1 b2 8 3 (by omega) (by omega) (by omega),
            seed_val_zero b0 b1 b2 8 4 (by omega) (by omega) (by omega),
            seed_val_zero b0 b1 b2 8 5 (by omega) (by omega) (by omega)]
      rw [e]
      rw [count_zero9 v hv1]
      omega
    · have e : unitVals (fill_diagonal (zeros 9) b0 b1 b2) (blockCoords 2 2)
          = [b2.getD 0 0, b2.getD 1 0, b2.getD 2 0, b2.getD 3 0, b2.getD 4 0, b2.getD 5 0, b2.getD 6 0, b2.getD 7 0, b2.getD 8 0] := by
        rw [show unitVals (fill_diagonal (zeros 9) b0 b1 b2) (blockCoords 2 2)
            = [get2 (fill_diagonal (zeros 9) b0 b1 b2) 6 6,
              get2 (fill_diagonal (zeros 9) b0 b1 b2) 6 7,
              get2 (fill_diagonal (zeros 9) b0 b1 b2) 6 8,
              get2 (fill_diagonal (zeros 9) b0 b1 b2) 7 6,
              get2 (fill_diagonal (zeros 9) b0 b1 b2) 7 7,
              get2 (fill_diagonal (zeros 9) b0 b1 b2) 7 8,
              get2 (fill_diagonal (zeros 9) b0 b1 b2) 8 6,
              get2 (fill_diagonal (zeros 9) b0 b1 b2) 8 7,
              get2 (fill_diagonal (zeros 9) b0 b1 b2) 8 8] from rfl]
        rw [seed_val_br b0 b1 b2 6 6 (by omega) (by omega),
            seed_val_br b0 b1 b2 6 7 (by omega) (by omega),
            seed_val_br b0 b1 b2 6 8 (by omega) (by omega),
            seed_val_br b0 b1 b2 7 6 (by omega) (by omega),
            seed_val_br b0 b1 b2 7 7 (by omega) (by omega),
            seed_val_br b0 b1 b2 7 8 (by omega) (by omega),
            seed_val_br b0 b1 b2 8 6 (by omega) (by omega),
            seed_val_br b0 b1 b2 8 7 (by omega) (by omega),
            seed_val_br b0 b1 b2 8 8 (by omega) (by omega)]
      rw [e]
      have e2 : ([b2.getD 0 0, b2.getD 1 0, b2.getD 2 0, b2.getD 3 0, b2.getD 4 0, b2.getD 5 0, b2.getD 6 0, b2.getD 7 0, b2.getD 8 0] : List Nat) = b2 := by
        have hm := map_getD_range b2 0
        rw [hl2] at hm
        exact hm
      rw [e2]
      exact List.nodup_iff_count_le_one.mp hn2 v

theorem fill_diagonal_inrange (b0 b1 b2 : List Nat)
    (h0 : b0.Perm (List.range' 1 9)) (h1 : b1.Perm (List.range' 1 9))
    (h2 : b2.Perm (List.range' 1 9)) :
    InRange9 (fill_diagonal (zeros 9) b0 b1 b2) := by
  intro j hj i hi
  by_cases c0 : j < 3 ∧ i < 3
  · rw [seed_val_tl b0 b1 b2 j i c0.1 c0.2]
    exact (perm_getD_bounds b0 h0 (3 * j + i) (by omega)).2
  · by_cases c1 : (3 ≤ j ∧ j < 6) ∧ (3 ≤ i ∧ i < 6)
    · rw [seed_val_mid b0 b1 b2 j i c1.1 c1.2]
      exact (perm_getD_bounds b1 h1 (3 * (j - 3) + (i - 3)) (by omega)).2
    · by_cases c2 : (6 ≤ j ∧ j < 9) ∧ (6 ≤ i ∧ i < 9)
      · rw [seed_val_br b0 b1 b2 j i c2.1 c2.2]
        exact (perm_getD_bounds b2 h2 (3 * (j - 6) + (i - 6)) (by omega)).2
      · rw [seed_val_zero b0 b1 b2 j i hj hi (by omega)]
        omega

theorem seed_nonzero (b0 b1 b2 : List Nat) (h0 : b0.Perm (List.range' 1 9)) :
    get2 (fill_diagonal (zeros 9) b0 b1 b2) 0 0 ≠ 0 ∧
    get2 (fill_diagonal (zeros 9) b0 b1 b2) 0 1 ≠ 0 := by
  rw [seed_val_tl b0 b1 b2 0 0 (by omega) (by omega),
    seed_val_tl b0 b1 b2 0 1 (by omega) (by omega)]
  have ha := perm_getD_bounds b0 h0 (3 * 0 + 0) (by omega)
  have hb := perm_getD_bounds b0 h0 (3 * 0 + 1) (by omega)
  exact ⟨by omega, by omega⟩

/-- C2 (amended): for the engine copies that scan the full block
(`Sudoku.py`, `Sudoku2.py`), whenever `fill_values()`'s recursive fill
succeeds — `fill_remaining(sqrt_N - 1, 0) = fill_remaining(2, 0)` returns
`True` on the diagonal-seeded solution array, for any shuffle outcomes
`b0, b1, b2` and any fuel — the resulting solution is a valid 9×9 Sudoku
solution: every row, every column, and every 3×3 block contains each value
of `1..9` exactly once, with no zeros anywhere.  (`remove_K_digits`, the
last step of `fill_values()`, never writes to the solution array, so this
is the solution after `fill_values()`.)  The `SudokuCLI.py` copy does not
satisfy this: see the counterexample. -/
theorem c2_generation_valid (b0 b1 b2 : List Nat)
    (h0 : b0.Perm (List.range' 1 9)) (h1 : b1.Perm (List.range' 1 9))
    (h2 : b2.Perm (List.range' 1 9)) (fuel : Nat) (sol : List (List Nat))
    (hrun : fill_remaining 9 (check_position 3) fuel 2 0
      (fill_diagonal (zeros 9) b0 b1 b2) = some (sol, true)) :
    Valid sol := by
  have hseed_d := fill_diagonal_dims b0 b1 b2
  have hseed_A := fill_diagonal_atmost b0 b1 b2 h0 h1 h2
  have hseed_R := fill_diagonal_inrange b0 b1 b2 h0 h1 h2
  have hnz := seed_nonzero b0 b1 b2 h0
  have hres := (fill_go fuel 2 0 _ (sol, true) hseed_d (by omega) (by omega)
    hseed_A hseed_R hrun).2 rfl
  obtain ⟨hd0, hA0, hR0, hfill0, hframe0⟩ := hres
  have hd : Dims 9 sol := hd0
  have hA : AtMost sol := hA0
  have hR : InRange9 sol := hR0
  have hfill : ∀ j, j < 9 → ∀ i, i < 9 → 9 * 0 + 2 ≤ 9 * j + i →
      get2 sol j i ≠ 0 := hfill0
  have hframe : ∀ j, j < 9 → ∀ i, i < 9 → 9 * j + i < 9 * 0 + 2 →
      get2 sol j i = get2 (fill_diagonal (zeros 9) b0 b1 b2) j i := hframe0
  have hallnz : ∀ j, j < 9 → ∀ i, i < 9 → get2 sol j i ≠ 0 := by
    intro j hj i hi
    by_cases hge : 2 ≤ 9 * j + i
    · exact hfill j hj i hi (by omega)
    · have hj0 : j = 0 := by omega
      have hi2 : i = 0 ∨ i = 1 := by omega
      subst hj0
      rcases hi2 with rfl | rfl
      · rw [hframe 0 (by omega) 0 (by omega) (by omega)]
        exact hnz.1
      · rw [hframe 0 (by omega) 1 (by omega) (by omega)]
        exact hnz.2
  refine ⟨hd, ?_, hallnz⟩
  intro v hv10 hv1
  refine ⟨fun y hy => ?_, fun x hx => ?_, fun bi hbi bj hbj => ?_⟩
  · apply count_eq_one_of_9 _ ?_ ?_ ?_ v hv10 hv1
    · rw [unitVals_length, rowCoords_length]
    · intro w hw
      unfold unitVals at hw
      rw [List.mem_map] at hw
      obtain ⟨p, hp, rfl⟩ := hw
      have hb := row_mem_bounds y hy p hp
      have hnz2 := hallnz p.1 hb.1 p.2 hb.2
      have hle := hR p.1 hb.1 p.2 hb.2
      omega
    · intro u hu10 hu1
      exact (hA u hu10 hu1).1 y hy
  · apply count_eq_one_of_9 _ ?_ ?_ ?_ v hv10 hv1
    · rw [unitVals_length, colCoords_length]
    · intro w hw
      unfold unitVals at hw
      rw [List.mem_map] at hw
      obtain ⟨p, hp, rfl⟩ := hw
      have hb := col_mem_bounds x hx p hp
      have hnz2 := hallnz p.1 hb.1 p.2 hb.2
      have hle := hR p.1 hb.1 p.2 hb.2
      omega
    · intro u hu10 hu1
      exact (hA u hu10 hu1).2.1 x hx
  · apply count_eq_one_of_9 _ ?_ ?_ ?_ v hv10 hv1
    · rw [unitVals_length, blockCoords_length bi hbi bj hbj]
    · intro w hw
      unfold unitVals at hw
      rw [List.mem_map] at hw
      obtain ⟨p, hp, rfl⟩ := hw
      have hb := blk_mem_bounds bi hbi bj hbj p hp
      have hnz2 := hallnz p.1 hb.1 p.2 hb.2
      have hle := hR p.1 hb.1 p.2 hb.2
      omega
    · intro u hu10 hu1
      exact (hA u hu10 hu1).2.2 bi hbi bj hbj

/-- C2 witness: the identity shuffle outcome seeds a run of the full-block
engine that succeeds with fuel 82 and produces `wit_sol`, which is a valid
solution. -/
theorem c2_generation_valid_witness :
    wit_b.Perm (List.range' 1 9) ∧ Valid wit_sol :=
  ⟨by decide,
   c2_generation_valid wit_b wit_b wit_b (by decide) (by decide) (by decide)
     82 wit_sol (by rfl)⟩
